import Mathlib

/-!
Verification of the vivadoc retrieval/answer pipeline.

This file gives a shallow embedding, in Lean 4, of the parts of the
vivadoc code base that the specification talks about:

* `src/search/hybrid-search.ts` — tokenizer, BM25 index build/search,
  cosine similarity;
* `src/search/intent-classifier.ts` — intent classification and query
  expansion;
* `src/search/cross-encoder-reranker.ts` — weight normalization and
  reranking;
* the `EmbeddingCache` of `src/core/vivadoc.ts` — `set` and LRU
  eviction;
* `src/chat/response-generator.ts` — the answer orchestrator
  (`generateResponse` / `generateStreamingResponse`).

JavaScript numbers are modelled by `ℚ` (and by `ℝ` where the code takes
square roots); `Math.log` is kept as an explicit function parameter,
since its exact value is transcendental — every theorem below either
holds for all choices of that parameter or only uses it at arguments
where its value is exact (`log 1 = 0`).  Impure ingredients (the search
index, the generation backend, `Date.now`, message-id generation) are
passed explicitly; fallible calls return `Except Unit`.
JavaScript's stable `Array.prototype.sort` is modelled by the stable
insertion sort `sortByDesc` below.
-/

namespace Vivadoc

/-! ## Data model (`src/types.ts`) -/

/-- Model of `Citation` from `src/types.ts`: file path, line range, snippet. -/
structure Citation where
  filePath : String
  startLine : Nat
  endLine : Nat
  content : String
deriving DecidableEq, Repr

/-- The two `ChunkMetadata` fields the retrieval pipeline reads
(`metadata.type` and `metadata.tags`).  The semantic-type enumeration is
modelled by its name. -/
structure ChunkMetadata where
  type : String
  tags : List String
deriving DecidableEq, Repr

/-- Model of `Chunk` from `src/types.ts` (the fields the pipeline reads). -/
structure Chunk where
  id : String
  content : String
  filePath : String
  startLine : Nat
  endLine : Nat
  language : String
  metadata : ChunkMetadata
deriving DecidableEq, Repr

/-- Model of `SearchResult` from `src/types.ts`. -/
structure SearchResult where
  chunk : Chunk
  score : ℚ
  relevance : ℚ
  citations : List Citation
deriving DecidableEq, Repr

/-- The fixed intent enumeration of `QueryIntent.type`. -/
inductive IntentType where
  | symbol
  | file
  | explanation
  | howto
  | route
  | error
  | test
deriving DecidableEq, Repr

/-- Model of `QueryIntent` from `src/types.ts`. -/
structure QueryIntent where
  type : IntentType
  confidence : ℚ
  entities : List String
  keywords : List String
deriving DecidableEq, Repr

/-- Model of `ChatMessage.metadata` from `src/types.ts`; optional JS fields are
`Option`s. -/
structure MessageMetadata where
  processingTime : Nat
  tokensUsed : Option Nat
  confidence : Option ℚ
deriving DecidableEq, Repr

/-- Model of `ChatMessage` from `src/types.ts`.  Its `timestamp` (`new Date()`) is an
abstract clock value. -/
structure ChatMessage where
  id : String
  role : String
  content : String
  timestamp : Nat
  citations : List Citation
  metadata : MessageMetadata
deriving DecidableEq, Repr

/-- Model of `LLMResponse` from `src/types.ts`. -/
structure LLMResponse where
  content : String
  tokensUsed : Option Nat
  processingTime : Nat
  confidence : Option ℚ
  citations : List Citation
deriving DecidableEq, Repr

/-! ## Stable sorting (JS `Array.prototype.sort`)

`results.sort((a, b) => b.score - a.score)` sorts descending by a
numeric key and, per the ECMAScript standard, is stable.  We model it by
a stable insertion sort parametrized by the key. -/

/-- Insert `x` into `l` before the first element whose key is `≤ key x`
(so equal keys keep `x`, the earlier element, first: stability). -/
def insertByDesc {α : Type} (key : α → ℚ) (x : α) : List α → List α
  | [] => [x]
  | y :: ys => if key y ≤ key x then x :: y :: ys else y :: insertByDesc key x ys

/-- Stable sort, descending by `key` — the model of
`arr.sort((a, b) => key(b) - key(a))`. -/
def sortByDesc {α : Type} (key : α → ℚ) : List α → List α
  | [] => []
  | x :: xs => insertByDesc key x (sortByDesc key xs)

/-- Stable sort, ascending by `key` — the model of
`arr.sort((a, b) => key(a) - key(b))`. -/
def sortByAsc {α : Type} (key : α → ℚ) (l : List α) : List α :=
  sortByDesc (fun a => -key a) l

/-! ## Tokenizer (`hybrid-search.ts` `tokenize` / `isStopWord`) -/

/-- The stop-word list of `HybridSearch.isStopWord`. -/
def stopWords : List String :=
  ["the", "a", "an", "and", "or", "but", "in", "on", "at", "to", "for",
   "of", "with", "by", "is", "are", "was", "were", "be", "been", "being",
   "have", "has", "had", "do", "does", "did", "will", "would", "could",
   "should", "may", "might", "can", "this", "that", "these", "those"]

def isStopWord (term : String) : Bool :=
  stopWords.contains term

/-- A character of the regex class `\w` (`[A-Za-z0-9_]`). -/
def isWordChar (c : Char) : Bool :=
  c.isAlphanum || c = '_'

/-- One character's image under `.toLowerCase().replace(/[^\w\s]/g, " ")`
(both operations act character by character). -/
def normChar (c : Char) : Char :=
  let l := c.toLower
  if isWordChar l || l.isWhitespace then l else ' '

/-- Split a character list into maximal whitespace-free runs. -/
def wordsAux : List Char → List Char → List (List Char)
  | [], acc => if acc.isEmpty then [] else [acc.reverse]
  | c :: cs, acc =>
      if c.isWhitespace then
        if acc.isEmpty then wordsAux cs [] else acc.reverse :: wordsAux cs []
      else wordsAux cs (c :: acc)

/-- Split on whitespace (`split(/\s+/)`), minus empty tokens.  (The JS split can emit one
leading empty string when the text starts with whitespace; it is removed
by the length filter of `tokenize`, so dropping empties here is
equivalent.) -/
def splitWhitespace (cs : List Char) : List String :=
  (wordsAux cs []).map String.mk

/-- Model of `HybridSearch.tokenize`: lower-case, replace non-word characters by
spaces, split on whitespace, keep tokens longer than 2 characters that
are not stop-words. -/
def tokenize (text : String) : List String :=
  ((splitWhitespace (text.data.map normChar)).filter
      (fun t => 2 < t.length)).filter (fun t => !isStopWord t)

/-! ## BM25 index (`hybrid-search.ts` `buildBM25Index` / `bm25Search`)

`Math.log` is transcendental, so the index build is parametrized by the
`log` function; the theorems below hold for every choice of it, and the
concrete counterexample only evaluates it at `1`, where `Math.log` is
exactly `0`. -/

/-- Document frequency of a term: `buildBM25Index` increments `docFreq`
once per chunk whose (distinct) token set contains the term, i.e. it
counts the chunks containing the term. -/
def docFreq (chunks : List Chunk) (term : String) : Nat :=
  (chunks.filter (fun c => (tokenize c.content).contains term)).length

/-- The weight `tf × idf` stored by `buildBM25Index` in the per-chunk
sparse map for `term` (and `0` when the term is absent from the chunk,
matching `chunkIndex.get(term) || 0` at search time). -/
def bm25Weight (log : ℚ → ℚ) (chunks : List Chunk) (c : Chunk) (term : String) : ℚ :=
  let terms := tokenize c.content
  if terms.contains term then
    (terms.count term : ℚ) *
      log (((chunks.length : ℚ) - (docFreq chunks term : ℚ) + 1/2) /
        ((docFreq chunks term : ℚ) + 1/2))
  else 0

/-- The summed BM25 score of a chunk for a tokenized query
(`bm25Search`'s inner loop; query terms keep their multiplicity). -/
def bm25Score (log : ℚ → ℚ) (chunks : List Chunk) (c : Chunk)
    (queryTerms : List String) : ℚ :=
  (queryTerms.map (bm25Weight log chunks c)).sum

/-- The `scores` map of `bm25Search` as an association list in
insertion = corpus iteration order: chunks whose summed score passes the
`score > 0` guard, paired with their score.  (The JS map is keyed by
chunk id; the theorems assume ids are unique, as the spec requires.) -/
def bm25Kept (log : ℚ → ℚ) (chunks : List Chunk) (queryTerms : List String) :
    List (Chunk × ℚ) :=
  chunks.filterMap (fun c =>
    let s := bm25Score log chunks c queryTerms
    if 0 < s then some (c, s) else none)

/-- Model of `HybridSearch.bm25Search` down to ranked `(chunk, score)` pairs:
keep positively scored chunks, stable-sort descending by score, truncate
to `limit`.  (The final `.map` to `SearchResult` copies the chunk, the
score twice and a citation; it does not affect ranking.) -/
def bm25Search (log : ℚ → ℚ) (chunks : List Chunk) (queryText : String)
    (limit : Nat) : List (Chunk × ℚ) :=
  (sortByDesc (fun p => p.2) (bm25Kept log chunks (tokenize queryText))).take limit

/-! ## Cosine similarity (`hybrid-search.ts` `cosineSimilarity`)

The loop runs `i` from `0` to `min(len a, len b) - 1`, so dot product
and both norms are taken over the component-wise `zip` of the vectors
(which truncates to the shorter one).  `Math.sqrt` forces the model
into `ℝ`. -/

/-- The `dotProduct` accumulator of the loop. -/
def dotTrunc (a b : List ℝ) : ℝ :=
  ((a.zip b).map (fun p => p.1 * p.2)).sum

/-- The `normA` accumulator of the loop: sum of `a[i] * a[i]` for
`i < min(len a, len b)`. -/
def normTruncA (a b : List ℝ) : ℝ :=
  ((a.zip b).map (fun p => p.1 * p.1)).sum

/-- The `normB` accumulator of the loop. -/
def normTruncB (a b : List ℝ) : ℝ :=
  ((a.zip b).map (fun p => p.2 * p.2)).sum

/-- Model of `HybridSearch.cosineSimilarity`. -/
noncomputable def cosineSimilarity (a b : List ℝ) : ℝ :=
  if a = [] ∨ b = [] then 0
  else if normTruncA a b = 0 ∨ normTruncB a b = 0 then 0
  else dotTrunc a b / (Real.sqrt (normTruncA a b) * Real.sqrt (normTruncB a b))

/-! ## Intent classifier (`intent-classifier.ts`)

The six pattern tables are regexes; a regex engine is out of scope for
the embedding, so a pattern's behaviour on the (fixed, lower-cased)
query is abstracted to the pair observed by `calculatePatternScore`:
the boolean `pattern.test(query)` and the global match count
`query.match(new RegExp(source, "gi")).length` (`0` when `null`).  All
theorems about the classifier hold for every such behaviour. -/

/-- What `calculatePatternScore` observes of one pattern on the query. -/
structure PatternHit where
  test : Bool
  gmatches : Nat
deriving DecidableEq, Repr

/-- One pattern's contribution inside `calculatePatternScore`: `+1`
when the pattern tests true, plus `matches.length * 0.2` when there is
more than one global match (the count is only consulted inside the
`if (pattern.test(query))` block). -/
def patternContribution (h : PatternHit) : ℚ :=
  if h.test then 1 + (if 1 < h.gmatches then (h.gmatches : ℚ) * (1/5) else 0) else 0

/-- Model of `IntentClassifier.calculatePatternScore`. -/
def calculatePatternScore (hits : List PatternHit) : ℚ :=
  (hits.map patternContribution).sum

/-- The pattern outcomes of the six per-type tables on one query. -/
structure QueryPatterns where
  symbol : List PatternHit
  file : List PatternHit
  explanation : List PatternHit
  howto : List PatternHit
  route : List PatternHit
  error : List PatternHit
deriving DecidableEq, Repr

/-- The `scores` record of `calculateScores`. -/
structure IntentScores where
  symbol : ℚ
  file : ℚ
  explanation : ℚ
  howto : ℚ
  route : ℚ
  error : ℚ
deriving DecidableEq, Repr

def rawScores (qp : QueryPatterns) : IntentScores :=
  { symbol := calculatePatternScore qp.symbol
    file := calculatePatternScore qp.file
    explanation := calculatePatternScore qp.explanation
    howto := calculatePatternScore qp.howto
    route := calculatePatternScore qp.route
    error := calculatePatternScore qp.error }

/-- The maximum `Math.max(...Object.values(scores))`. -/
def maxOfScores (s : IntentScores) : ℚ :=
  max s.symbol (max s.file (max s.explanation (max s.howto (max s.route s.error))))

/-- Model of `IntentClassifier.calculateScores`: raw pattern scores, normalized
by the maximum raw score when it is positive; when every raw score is
`0`, the explanation score is forced to `0.5`. -/
def calculateScores (qp : QueryPatterns) : IntentScores :=
  let s := rawScores qp
  let m := maxOfScores s
  let s1 := if 0 < m then
      { symbol := s.symbol / m, file := s.file / m,
        explanation := s.explanation / m, howto := s.howto / m,
        route := s.route / m, error := s.error / m }
    else s
  if m = 0 then { s1 with explanation := 1/2 } else s1

/-- The list `Object.entries(scores)` in the record's insertion order. -/
def scoresList (s : IntentScores) : List (IntentType × ℚ) :=
  [(IntentType.symbol, s.symbol), (IntentType.file, s.file),
   (IntentType.explanation, s.explanation), (IntentType.howto, s.howto),
   (IntentType.route, s.route), (IntentType.error, s.error)]

/-- The classified type and confidence of `classifyIntent` (entity and
keyword extraction do not influence them): the first entry with maximal
score, falling back to `explanation` (`|| "explanation"`), paired with
the maximal score as confidence. -/
def classifyTypeConfidence (qp : QueryPatterns) : IntentType × ℚ :=
  let s := calculateScores qp
  let m := maxOfScores s
  let t := (((scoresList s).find? (fun p => p.2 = m)).map Prod.fst).getD IntentType.explanation
  (t, m)

/-! ## Query expansion and filters
(`intent-classifier.ts` `enhanceQuery`, `response-generator.ts`
`createFiltersFromIntent`) -/

/-- First-occurrence deduplication keyed by `key` — the model of a JS
`Set`-based seen filter (`[...new Set(xs)]` and
`deduplicateResults`' seen-set filter), which keeps the first
occurrence of every key. -/
def dedupByAux {α : Type} (key : α → String) : List α → List String → List α
  | [], _ => []
  | x :: xs, seen =>
      if seen.contains (key x) then dedupByAux key xs seen
      else x :: dedupByAux key xs (key x :: seen)

def dedupBy {α : Type} (key : α → String) (l : List α) : List α :=
  dedupByAux key l []

/-- Model of `IntentClassifier.enhanceQuery`: original query first, type-specific
derived queries, first-occurrence dedup, cap 6. -/
def enhanceQuery (originalQuery : String) (intent : QueryIntent) : List String :=
  let extra : List String :=
    match intent.type with
    | IntentType.symbol =>
        intent.entities.flatMap (fun e =>
          [e, "export " ++ e, "import " ++ e, e ++ " function", e ++ " component"])
    | IntentType.file =>
        intent.keywords.flatMap (fun k =>
          [k ++ " file", k ++ ".ts", k ++ ".tsx", k ++ ".js"])
    | IntentType.howto =>
        ["example", "usage", "implement"] ++
          intent.keywords.flatMap (fun k => ["how to " ++ k, k ++ " example"])
    | IntentType.error =>
        ["error", "exception", "try catch"] ++
          intent.keywords.flatMap (fun k => [k ++ " error", k ++ " exception"])
    | IntentType.route => ["route", "router", "path", "page"]
    | _ => []
  (dedupBy (fun s => s) (originalQuery :: extra)).take 6

/-- Model of `SearchFilters` from `src/types.ts` (the fields
`createFiltersFromIntent` can set). -/
structure SearchFilters where
  filePath : Option String
  language : Option String
  type : Option (List String)
  tags : Option (List String)
deriving DecidableEq, Repr

def emptyFilters : SearchFilters :=
  { filePath := none, language := none, type := none, tags := none }

/-- Model of `ResponseGenerator.createFiltersFromIntent`.  The entity test
`entity.includes(".") || entity.match(/\.(ts|tsx|js|jsx|md|json)$/i)` is
equivalent to `entity.includes(".")`, since any match of that regex
contains a dot. -/
def createFiltersFromIntent (intent : QueryIntent) : Option SearchFilters :=
  let base : SearchFilters :=
    match intent.type with
    | IntentType.symbol =>
        { emptyFilters with type := some ["function", "component", "hook", "service"] }
    | IntentType.file => { emptyFilters with type := some ["file"] }
    | IntentType.route =>
        { filePath := none, language := none, type := some ["route", "file"],
          tags := some ["route", "router", "navigation"] }
    | IntentType.test =>
        { filePath := none, language := none, type := some ["test"],
          tags := some ["test"] }
    | IntentType.error =>
        { emptyFilters with tags := some ["error", "exception", "try", "catch"] }
    | _ => emptyFilters
  let fileEntities := intent.entities.filter (fun e => e.contains '.')
  let filters :=
    match fileEntities with
    | [] => base
    | e :: _ => { base with filePath := some e }
  if filters = emptyFilters then none else some filters

/-! ## Answer orchestrator (`response-generator.ts`)

`ResponseGenerator` composes impure collaborators; they are passed as
an explicit environment:

* `search q limit` models `this.search.search(query, limit)` — any
  result list, or a thrown exception (`Except.error`);
* `generate prompt context` models `this.llm.generate` likewise;
* `generateStream prompt context` models the optional
  `this.llm.generateStream`; its `.ok` value is the list of fragments
  the async generator yields, `.error` a throw during streaming;
* `msgId`, `now`, `elapsed` model `generateMessageId()`, `new Date()`
  and `Math.round(performance.now() - startTime)`.

`classifyIntent` resolves `intent || classifyIntent(userMessage)`
before the steps modelled here; the theorems quantify over the
resolved intent.  The `onChunk` sink only forwards fragments and never
influences the returned message, so it is not modelled.  Alongside the
returned message the model counts how often the generation backend
(`generate` or `generateStream`) is invoked. -/

/-- Model of `SearchQuery` from `src/types.ts` (as built by `generateResponse`). -/
structure SearchQuery where
  text : String
  type : IntentType
  filters : Option SearchFilters
deriving DecidableEq, Repr

structure OrchestratorEnv where
  search : SearchQuery → Nat → Except Unit (List SearchResult)
  generate : String → List String → Except Unit LLMResponse
  generateStream : Option (String → List String → Except Unit (List String))
  msgId : String
  now : Nat
  elapsed : Nat

/-- The per-result boost of `searchRelevantContext`:
`score * (0.5 + intent.confidence * 0.5)` (and the same for
`relevance`). -/
def boostResult (conf : ℚ) (r : SearchResult) : SearchResult :=
  { r with score := r.score * (1/2 + conf * (1/2)),
           relevance := r.relevance * (1/2 + conf * (1/2)) }

/-- The `allResults` accumulator of `searchRelevantContext`: for each
expanded query, search (limit 8) and boost; a query whose search throws
is skipped (`catch` + `console.warn`). -/
def allBoostedResults (env : OrchestratorEnv) (userMessage : String)
    (intent : QueryIntent) : List SearchResult :=
  (enhanceQuery userMessage intent).foldl (fun acc q =>
    match env.search
        { text := q, type := intent.type, filters := createFiltersFromIntent intent } 8 with
    | Except.ok rs => acc ++ rs.map (boostResult intent.confidence)
    | Except.error _ => acc) []

/-- Model of `ResponseGenerator.deduplicateResults`: seen-set filter on chunk id
(keeps the first occurrence), then stable sort descending by score. -/
def deduplicateResults (results : List SearchResult) : List SearchResult :=
  sortByDesc (fun r => r.score) (dedupBy (fun r => r.chunk.id) results)

/-- Model of `ResponseGenerator.searchRelevantContext`. -/
def searchRelevantContext (env : OrchestratorEnv) (userMessage : String)
    (intent : QueryIntent) : List SearchResult :=
  (deduplicateResults (allBoostedResults env userMessage intent)).take 6

/-- Model of `ResponseGenerator.hasSufficientContext`: non-empty and first
(= best, the list being sorted) score above `0.1`.  The JS
`searchResults[0]?.score || 0` only replaces a score of `0` by `0`. -/
def hasSufficientContext (searchResults : List SearchResult) : Bool :=
  match searchResults with
  | [] => false
  | r :: _ => decide ((1 : ℚ)/10 < r.score)

/-- One context entry of `prepareContext` (the template literal, after
its `.trim()`). -/
def contextEntry (r : SearchResult) : String :=
  "ARQUIVO: " ++ r.chunk.filePath ++
  "\nLINHAS: " ++ toString r.chunk.startLine ++ "-" ++ toString r.chunk.endLine ++
  "\nLINGUAGEM: " ++ r.chunk.language ++
  "\nTIPO: " ++ r.chunk.metadata.type ++
  "\nCONTEÚDO:\n" ++ r.chunk.content

/-- Model of `ResponseGenerator.prepareContext`: one entry per result, plus the
last 3 previous messages when present. -/
def prepareContext (searchResults : List SearchResult)
    (previousMessages : Option (List ChatMessage)) : List String :=
  searchResults.map contextEntry ++
    (match previousMessages with
     | some msgs =>
         if 0 < msgs.length then
           ["CONTEXTO DA CONVERSA:\n" ++ String.intercalate "\n"
             ((msgs.drop (msgs.length - 3)).map
               (fun m => m.role.toUpper ++ ": " ++ m.content))]
         else []
     | none => [])

/-- Model of `ResponseGenerator.enhanceCitations`: backend citations first, then
one synthetic citation per retrieved chunk not already covered by file
path + start line. -/
def enhanceCitations (llmCitations : List Citation)
    (searchResults : List SearchResult) : List Citation :=
  searchResults.foldl (fun enhanced r =>
    if enhanced.any (fun cit =>
        cit.filePath == r.chunk.filePath && cit.startLine == r.chunk.startLine) then
      enhanced
    else
      enhanced ++ [{ filePath := r.chunk.filePath, startLine := r.chunk.startLine,
                     endLine := r.chunk.endLine,
                     content := r.chunk.content.take 200 ++ "..." }]) llmCitations

/-- The expression `filePath.split("/").pop()`. -/
def lastPathSegment (p : String) : String :=
  (p.splitOn "/").getLastD ""

/-- The `suggestions` list of `createNoResponseMessage`. -/
def noResponseSuggestions (searchResults : List SearchResult) : List String :=
  let base := ["Tente usar termos mais específicos",
               "Verifique se o código foi indexado corretamente",
               "Use nomes de funções, classes ou arquivos específicos"]
  if 0 < searchResults.length then
    base ++ ["Talvez você esteja procurando em: " ++
      String.intercalate ", " ((searchResults.map (fun r => lastPathSegment r.chunk.filePath)).take 3)]
  else base

/-- Model of `ResponseGenerator.createNoResponseMessage` (the structured
insufficient-context message). -/
def createNoResponseMessage (env : OrchestratorEnv) (userMessage : String)
    (searchResults : List SearchResult) : ChatMessage :=
  { id := env.msgId, role := "assistant",
    content := "Não encontrei informações suficientes sobre \"" ++ userMessage ++
      "\" no código indexado.\n\n**Sugestões:**\n" ++
      String.intercalate "\n" ((noResponseSuggestions searchResults).map (fun s => "• " ++ s)) ++
      "\n\nTente refinar sua pergunta ou verificar se os arquivos relevantes foram indexados.",
    timestamp := env.now, citations := [],
    metadata := { processingTime := 0, tokensUsed := none, confidence := some 0 } }

/-- Model of `ResponseGenerator.createLowConfidenceMessage`. -/
def createLowConfidenceMessage (env : OrchestratorEnv) (userMessage : String)
    (searchResults : List SearchResult) : ChatMessage :=
  { id := env.msgId, role := "assistant",
    content := "Encontrei algumas informações relacionadas a \"" ++ userMessage ++
      "\", mas não tenho confiança suficiente para dar uma resposta precisa.\n\n" ++
      "**Arquivos que podem ser relevantes:**\n" ++
      String.intercalate "\n" ((searchResults.take 3).map (fun r =>
        "• " ++ r.chunk.filePath ++ ":" ++ toString r.chunk.startLine ++ "-" ++
          toString r.chunk.endLine)) ++
      "\n\nTente ser mais específico em sua pergunta ou consulte diretamente esses arquivos.",
    timestamp := env.now,
    citations := (searchResults.take 3).map (fun r =>
      { filePath := r.chunk.filePath, startLine := r.chunk.startLine,
        endLine := r.chunk.endLine, content := r.chunk.content.take 200 ++ "..." }),
    metadata := { processingTime := 0, tokensUsed := none, confidence := some (1/5) } }

/-- Model of `ResponseGenerator.createErrorMessage` — the fixed-shape apology
message of the orchestrator's outer `catch`. -/
def createErrorMessage (env : OrchestratorEnv) (userMessage : String) : ChatMessage :=
  { id := env.msgId, role := "assistant",
    content := "Desculpe, ocorreu um erro interno ao processar sua pergunta: \"" ++
      userMessage ++
      "\".\n\nTente novamente em alguns instantes. Se o problema persistir, verifique se o sistema está funcionando corretamente.",
    timestamp := env.now, citations := [],
    metadata := { processingTime := 0, tokensUsed := none, confidence := some 0 } }

/-- The confidence gate
`llmResponse.confidence && llmResponse.confidence < threshold`:
an absent confidence and a confidence of exactly `0` are falsy in JS, so
they do not trigger the gate. -/
def confidenceGate (conf : Option ℚ) (threshold : ℚ) : Bool :=
  match conf with
  | none => false
  | some c => c != 0 && decide (c < threshold)

/-- The normal assembled answer (`responseMessage` object literal). -/
def assembleMessage (env : OrchestratorEnv) (llmResponse : LLMResponse)
    (searchResults : List SearchResult) : ChatMessage :=
  { id := env.msgId, role := "assistant", content := llmResponse.content,
    timestamp := env.now,
    citations := enhanceCitations llmResponse.citations searchResults,
    metadata := { processingTime := env.elapsed, tokensUsed := llmResponse.tokensUsed,
                  confidence := llmResponse.confidence } }

/-- The `try` body of `ResponseGenerator.generateResponse` (after intent
resolution), paired with the number of generation-backend calls.
`threshold` is `config.noResponseThreshold` (default `0.3`). -/
def generateResponseTry (env : OrchestratorEnv) (userMessage : String)
    (intent : QueryIntent) (previousMessages : Option (List ChatMessage))
    (threshold : ℚ) : Except Unit ChatMessage × Nat :=
  let searchResults := searchRelevantContext env userMessage intent
  if hasSufficientContext searchResults = false then
    (Except.ok (createNoResponseMessage env userMessage searchResults), 0)
  else
    match env.generate userMessage (prepareContext searchResults previousMessages) with
    | Except.error e => (Except.error e, 1)
    | Except.ok llmResponse =>
        if confidenceGate llmResponse.confidence threshold then
          (Except.ok (createLowConfidenceMessage env userMessage searchResults), 1)
        else
          (Except.ok (assembleMessage env llmResponse searchResults), 1)

/-- Model of `ResponseGenerator.generateResponse`: the `try` body under the outer
`catch`, which converts any escaped exception into the apology
message. -/
def generateResponse (env : OrchestratorEnv) (userMessage : String)
    (intent : QueryIntent) (previousMessages : Option (List ChatMessage))
    (threshold : ℚ) : ChatMessage × Nat :=
  match generateResponseTry env userMessage intent previousMessages threshold with
  | (Except.ok m, n) => (m, n)
  | (Except.error _, n) => (createErrorMessage env userMessage, n)

/-- The shared tail of `generateStreamingResponse` (confidence gate and
assembly), applied to the `llmResponse` built on either branch. -/
def streamingTail (env : OrchestratorEnv) (userMessage : String)
    (searchResults : List SearchResult) (llmResponse : LLMResponse)
    (threshold : ℚ) : Except Unit ChatMessage × Nat :=
  if confidenceGate llmResponse.confidence threshold then
    (Except.ok (createLowConfidenceMessage env userMessage searchResults), 1)
  else
    (Except.ok (assembleMessage env llmResponse searchResults), 1)

/-- The `try` body of `ResponseGenerator.generateStreamingResponse`:
when the provider implements `generateStream`, the terminal message is
built from the accumulated fragments with `confidence: 0.8` and
`tokensUsed: Math.ceil(content.length / 4)` (`= (length + 3) / 4` in
`ℕ`); otherwise it falls back to `generate`. -/
def generateStreamingResponseTry (env : OrchestratorEnv) (userMessage : String)
    (intent : QueryIntent) (previousMessages : Option (List ChatMessage))
    (threshold : ℚ) : Except Unit ChatMessage × Nat :=
  let searchResults := searchRelevantContext env userMessage intent
  if hasSufficientContext searchResults = false then
    (Except.ok (createNoResponseMessage env userMessage searchResults), 0)
  else
    let context := prepareContext searchResults previousMessages
    match env.generateStream with
    | some gs =>
        match gs userMessage context with
        | Except.error e => (Except.error e, 1)
        | Except.ok chunks =>
            let streamingContent := String.join chunks
            streamingTail env userMessage searchResults
              { content := streamingContent,
                tokensUsed := some ((streamingContent.length + 3) / 4),
                processingTime := env.elapsed,
                confidence := some (4/5), citations := [] } threshold
    | none =>
        match env.generate userMessage context with
        | Except.error e => (Except.error e, 1)
        | Except.ok llmResponse =>
            streamingTail env userMessage searchResults llmResponse threshold

/-- Model of `ResponseGenerator.generateStreamingResponse` under its outer
`catch`. -/
def generateStreamingResponse (env : OrchestratorEnv) (userMessage : String)
    (intent : QueryIntent) (previousMessages : Option (List ChatMessage))
    (threshold : ℚ) : ChatMessage × Nat :=
  match generateStreamingResponseTry env userMessage intent previousMessages threshold with
  | (Except.ok m, n) => (m, n)
  | (Except.error _, n) => (createErrorMessage env userMessage, n)

/-! ## Reranker (`cross-encoder-reranker.ts`) -/

/-- Model of `RerankingResult` from `cross-encoder-reranker.ts`. -/
structure RerankingResult where
  chunk : Chunk
  originalScore : ℚ
  rerankScore : ℚ
  combinedScore : ℚ
deriving DecidableEq, Repr

structure RerankerWeights where
  original : ℚ
  rerank : ℚ
deriving DecidableEq, Repr

/-- The `CrossEncoderReranker` constructor: the field initializer
`{original: 0.3, rerank: 0.7}` is immediately overwritten with the
supplied pair divided by its sum.  (JS division by a zero sum yields
`NaN`; the `ℚ` model yields `0` — in both semantics the weights then
fail to sum to `1`, which is what the C8 counterexample exhibits.) -/
def mkRerankerWeights (originalWeight rerankWeight : ℚ) : RerankerWeights :=
  let totalWeight := originalWeight + rerankWeight
  { original := originalWeight / totalWeight, rerank := rerankWeight / totalWeight }

/-- Model of `CrossEncoderReranker.rerank`.  Its `calculateCrossEncoderScore` is a
pure deterministic scorer built from regex heuristics; it enters only
through the value it assigns each (query, chunk) pair, so it is
abstracted as the parameter `ce` and every theorem holds for all
scorers. -/
def rerank (ce : String → Chunk → ℚ) (w : RerankerWeights) (query : String)
    (results : List SearchResult) (topK : Nat) : List RerankingResult :=
  if results.isEmpty then []
  else
    let rerankingResults := results.map (fun result =>
      let rerankScore := ce query result.chunk
      { chunk := result.chunk, originalScore := result.score,
        rerankScore := rerankScore,
        combinedScore := w.original * result.score + w.rerank * rerankScore })
    (sortByDesc (fun r => r.combinedScore) rerankingResults).take topK

/-! ## Embedding cache (`vivadoc.ts` `EmbeddingCache`)

The cache is a JS `Map` from `generateKey(content)` (a SHA-256 hex
digest — distinct contents are assumed to give distinct keys) to
`CacheEntry`, modelled as an association list in insertion order, which
is exactly the `Map`'s iteration order. -/

/-- Model of `CacheEntry` from `vivadoc.ts`. -/
structure CacheEntry where
  embedding : List ℚ
  hash : String
  timestamp : Nat
  access_count : Nat
  last_access : Nat
deriving DecidableEq, Repr

/-- The entry built by `EmbeddingCache.set`. -/
def mkCacheEntry (key : String) (embedding : List ℚ) (now : Nat) : CacheEntry :=
  { embedding := embedding, hash := key, timestamp := now,
    access_count := 1, last_access := now }

/-- JS `Map.set`: overwrite in place when the key exists (keeping its
original insertion position), else append. -/
def mapSet : List (String × CacheEntry) → String → CacheEntry →
    List (String × CacheEntry)
  | [], k, v => [(k, v)]
  | (k', v') :: rest, k, v =>
      if k' = k then (k, v) :: rest else (k', v') :: mapSet rest k v

/-- Model of `EmbeddingCache.evictLeastRecentlyUsed`: stable-sort the entries
ascending by `last_access`, then delete the first
`Math.floor(maxEntries * 0.2)` of them from the map (the loop is also
bounded by the entry count; deleting by key, the map keeps its insertion
order for the survivors).  `Math.floor(maxEntries * 0.2)` equals
`maxEntries / 5` in `ℕ`: the float product of an integer with `0.2`
never crosses an integer boundary. -/
def evictLeastRecentlyUsed (maxEntries : Nat)
    (cache : List (String × CacheEntry)) : List (String × CacheEntry) :=
  let entries := sortByAsc (fun e => (e.2.last_access : ℚ)) cache
  let toRemove := maxEntries / 5
  let victims := (entries.take toRemove).map (fun e => e.1)
  cache.filter (fun e => !victims.contains e.1)

/-- Model of `EmbeddingCache.set`: insert/overwrite the entry, then run one bulk
eviction pass when the entry count exceeds `maxEntries`. -/
def cacheSet (maxEntries : Nat) (cache : List (String × CacheEntry))
    (key : String) (embedding : List ℚ) (now : Nat) : List (String × CacheEntry) :=
  let c := mapSet cache key (mkCacheEntry key embedding now)
  if maxEntries < c.length then evictLeastRecentlyUsed maxEntries c else c

/-- All pattern hits of the six tables, in table order. -/
def allHits (qp : QueryPatterns) : List PatternHit :=
  qp.symbol ++ qp.file ++ qp.explanation ++ qp.howto ++ qp.route ++ qp.error

/-- A query on which exactly one symbol pattern tests true. -/
def qpOneMatch : QueryPatterns :=
  { symbol := [{ test := true, gmatches := 1 }], file := [],
    explanation := [], howto := [], route := [], error := [] }

/-- A query on which no pattern tests true. -/
def qpNoMatch : QueryPatterns :=
  { symbol := [{ test := false, gmatches := 0 }], file := [],
    explanation := [], howto := [], route := [], error := [] }

/-- A full cache of five distinct keys with increasing access times. -/
def cacheFive : List (String × CacheEntry) :=
  [("a", mkCacheEntry "a" [] 0), ("b", mkCacheEntry "b" [] 1),
   ("c", mkCacheEntry "c" [] 2), ("d", mkCacheEntry "d" [] 3),
   ("e", mkCacheEntry "e" [] 4)]

/-- The surrogate for `Math.log` in the C5 counterexample.  Only
`log 1` is ever evaluated on that corpus (both terms occur in exactly
one of the two chunks, so the idf argument is `(2−1+0.5)/(1+0.5) = 1`),
and `linLog 1 = 0 = Math.log(1)` exactly (also in IEEE doubles). -/
def linLog (q : ℚ) : ℚ := q - 1

def chunkFoo : Chunk :=
  { id := "c1", content := "foo", filePath := "a.ts", startLine := 1, endLine := 1,
    language := "ts", metadata := { type := "file", tags := [] } }

def chunkBar : Chunk :=
  { id := "c2", content := "bar", filePath := "b.ts", startLine := 1, endLine := 1,
    language := "ts", metadata := { type := "file", tags := [] } }

/-- A backend environment whose index finds nothing. -/
def envNoHits : OrchestratorEnv :=
  { search := fun _ _ => Except.ok [],
    generate := fun _ _ => Except.ok
      { content := "", tokensUsed := none, processingTime := 0,
        confidence := none, citations := [] },
    generateStream := none, msgId := "m1", now := 0, elapsed := 0 }

/-- A plain explanation-intent with full confidence. -/
def intentPlain : QueryIntent :=
  { type := IntentType.explanation, confidence := 1, entities := [], keywords := [] }

def chunkDup : Chunk :=
  { id := "dup", content := "conteudo", filePath := "src/d.ts", startLine := 1,
    endLine := 2, language := "ts", metadata := { type := "file", tags := [] } }

def resLow : SearchResult :=
  { chunk := chunkDup, score := 1/5, relevance := 1/5, citations := [] }

def resHigh : SearchResult :=
  { chunk := chunkDup, score := 9/10, relevance := 9/10, citations := [] }

def intentRoute : QueryIntent :=
  { type := IntentType.route, confidence := 1, entities := [], keywords := [] }

/-- An index that returns the low-scored occurrence of chunk `dup` for
the original query and the high-scored occurrence for the expanded query
`"route"`. -/
def envTwoHits : OrchestratorEnv :=
  { search := fun q _ =>
      if q.text = "pergunta" then Except.ok [resLow]
      else if q.text = "route" then Except.ok [resHigh]
      else Except.ok [],
    generate := fun _ _ => Except.ok
      { content := "", tokensUsed := none, processingTime := 0,
        confidence := none, citations := [] },
    generateStream := none, msgId := "m", now := 0, elapsed := 0 }

/-- A backend whose search succeeds and whose generation — streaming or
not — throws at every call. -/
def envThrow : OrchestratorEnv :=
  { search := fun _ _ => Except.ok [resHigh],
    generate := fun _ _ => Except.error (),
    generateStream := some (fun _ _ => Except.error ()),
    msgId := "m", now := 0, elapsed := 0 }

/-- The backend response reporting confidence exactly `0`. -/
def respZero : LLMResponse :=
  { content := "resposta", tokensUsed := some 3, processingTime := 0,
    confidence := some 0, citations := [] }

def envConfZero : OrchestratorEnv :=
  { search := fun _ _ => Except.ok [resHigh],
    generate := fun _ _ => Except.ok respZero,
    generateStream := none, msgId := "m", now := 0, elapsed := 0 }

/-- The backend response reporting confidence `0.2 ∈ (0, 0.3)`. -/
def respLowConf : LLMResponse :=
  { content := "resposta", tokensUsed := some 3, processingTime := 0,
    confidence := some (1/5), citations := [] }

def envConfLow : OrchestratorEnv :=
  { search := fun _ _ => Except.ok [resHigh],
    generate := fun _ _ => Except.ok respLowConf,
    generateStream := none, msgId := "m", now := 0, elapsed := 0 }

/-- A streaming backend yielding two fragments. -/
def envStream : OrchestratorEnv :=
  { search := fun _ _ => Except.ok [resHigh],
    generate := fun _ _ => Except.error (),
    generateStream := some (fun _ _ => Except.ok ["olá ", "mundo"]),
    msgId := "m", now := 0, elapsed := 0 }

/-!
The remainder of the file holds the lemmas and main theorems about the
definitions above.
-/

theorem insertByDesc_perm {α : Type} (key : α → ℚ) (x : α) (l : List α) :
    (insertByDesc key x l).Perm (x :: l) := by
  induction l with
  | nil => simp [insertByDesc]
  | cons y ys ih =>
      simp only [insertByDesc]
      by_cases h : key y ≤ key x
      · simp [h]
      · simp only [h, if_neg, ite_false]
        exact (List.Perm.cons y ih).trans (List.Perm.swap x y ys)

theorem sortByDesc_perm {α : Type} (key : α → ℚ) (l : List α) :
    (sortByDesc key l).Perm l := by
  induction l with
  | nil => simp [sortByDesc]
  | cons x xs ih =>
      exact (insertByDesc_perm key x (sortByDesc key xs)).trans (ih.cons x)

theorem sortByDesc_mem {α : Type} (key : α → ℚ) (l : List α) (a : α) :
    a ∈ sortByDesc key l ↔ a ∈ l :=
  (sortByDesc_perm key l).mem_iff

theorem sortByDesc_length {α : Type} (key : α → ℚ) (l : List α) :
    (sortByDesc key l).length = l.length :=
  (sortByDesc_perm key l).length_eq

theorem insertByDesc_pairwise {α : Type} (key : α → ℚ) (x : α) (l : List α)
    (h : l.Pairwise (fun a b => key b ≤ key a)) :
    (insertByDesc key x l).Pairwise (fun a b => key b ≤ key a) := by
  induction l with
  | nil => simp [insertByDesc]
  | cons y ys ih =>
      simp only [insertByDesc]
      rcases List.pairwise_cons.mp h with ⟨hy, hys⟩
      by_cases hle : key y ≤ key x
      · rw [if_pos hle]
        refine List.pairwise_cons.mpr ⟨?_, h⟩
        intro b hb
        rcases List.mem_cons.mp hb with hb | hb
        · simpa [hb] using hle
        · exact le_trans (hy b hb) hle
      · rw [if_neg hle]
        push_neg at hle
        refine List.pairwise_cons.mpr ⟨?_, ih hys⟩
        intro b hb
        rw [(insertByDesc_perm key x ys).mem_iff] at hb
        rcases List.mem_cons.mp hb with hb | hb
        · simpa [hb] using le_of_lt hle
        · exact hy b hb

theorem sortByDesc_pairwise {α : Type} (key : α → ℚ) (l : List α) :
    (sortByDesc key l).Pairwise (fun a b => key b ≤ key a) := by
  induction l with
  | nil => simp [sortByDesc]
  | cons x xs ih => exact insertByDesc_pairwise key x _ ih

theorem insertByDesc_filter_eq {α : Type} (key : α → ℚ) (x : α) (l : List α)
    (s : ℚ) (hx : key x = s) :
    (insertByDesc key x l).filter (fun a => key a = s) =
      x :: l.filter (fun a => key a = s) := by
  induction l with
  | nil => simp [insertByDesc, hx]
  | cons y ys ih =>
      simp only [insertByDesc]
      by_cases hle : key y ≤ key x
      · rw [if_pos hle]
        by_cases hy : key y = s
        · simp [List.filter_cons, hx, hy]
        · simp [List.filter_cons, hx, hy]
      · rw [if_neg hle]
        push_neg at hle
        have hy : ¬ (key y = s) := by
          intro hcon
          exact absurd (hcon.trans hx.symm).le (not_le.mpr hle)
        simp [List.filter_cons, hy, ih]

theorem insertByDesc_filter_ne {α : Type} (key : α → ℚ) (x : α) (l : List α)
    (s : ℚ) (hx : ¬ (key x = s)) :
    (insertByDesc key x l).filter (fun a => key a = s) =
      l.filter (fun a => key a = s) := by
  induction l with
  | nil => simp [insertByDesc, hx]
  | cons y ys ih =>
      simp only [insertByDesc]
      by_cases hle : key y ≤ key x
      · rw [if_pos hle]
        simp [List.filter_cons, hx]
      · rw [if_neg hle]
        simp [List.filter_cons, ih]

/-- Stability of `sortByDesc`: elements sharing one key value keep
their original relative order (the sort only permutes across distinct
key values). -/
theorem sortByDesc_filter_stable {α : Type} (key : α → ℚ) (l : List α) (s : ℚ) :
    (sortByDesc key l).filter (fun a => key a = s) =
      l.filter (fun a => key a = s) := by
  induction l with
  | nil => simp [sortByDesc]
  | cons x xs ih =>
      simp only [sortByDesc]
      by_cases hx : key x = s
      · rw [insertByDesc_filter_eq key x _ s hx, ih]
        simp [List.filter_cons, hx]
      · rw [insertByDesc_filter_ne key x _ s hx, ih]
        simp [List.filter_cons, hx]

theorem sortByAsc_perm {α : Type} (key : α → ℚ) (l : List α) :
    (sortByAsc key l).Perm l :=
  sortByDesc_perm _ l

theorem sortByAsc_pairwise {α : Type} (key : α → ℚ) (l : List α) :
    (sortByAsc key l).Pairwise (fun a b => key a ≤ key b) := by
  have h := sortByDesc_pairwise (fun a => -key a) l
  exact h.imp (fun {a b} hab => by simpa using hab)

theorem list_map_sum_eq_fin {α : Type} (l : List α) (h : α → ℝ) :
    (l.map h).sum = ∑ i : Fin l.length, h (l.get i) := by
  conv_lhs => rw [← List.ofFn_get l]
  rw [List.map_ofFn, List.sum_ofFn]
  rfl

theorem dotTrunc_comm (a b : List ℝ) : dotTrunc a b = dotTrunc b a := by
  unfold dotTrunc
  rw [← List.zip_swap a b, List.map_map]
  congr 1
  apply List.map_congr_left
  intro p _
  simp [Prod.swap, mul_comm]

theorem normTruncA_swap (a b : List ℝ) : normTruncA a b = normTruncB b a := by
  unfold normTruncA normTruncB
  rw [← List.zip_swap a b, List.map_map]
  rfl

theorem normTruncA_nonneg (a b : List ℝ) : 0 ≤ normTruncA a b := by
  apply List.sum_nonneg
  intro x hx
  rcases List.mem_map.mp hx with ⟨p, _, hp⟩
  exact hp ▸ mul_self_nonneg p.1

theorem normTruncB_nonneg (a b : List ℝ) : 0 ≤ normTruncB a b := by
  rw [← normTruncA_swap b a]
  exact normTruncA_nonneg b a

/-- Cauchy–Schwarz for the truncated accumulators. -/
theorem abs_dotTrunc_le_sqrt_mul_sqrt (a b : List ℝ) :
    |dotTrunc a b| ≤ Real.sqrt (normTruncA a b) * Real.sqrt (normTruncB a b) := by
  unfold dotTrunc normTruncA normTruncB
  rw [list_map_sum_eq_fin, list_map_sum_eq_fin, list_map_sum_eq_fin]
  have h := Finset.sum_mul_sq_le_sq_mul_sq (Finset.univ : Finset (Fin (a.zip b).length))
    (fun i => ((a.zip b).get i).1) (fun i => ((a.zip b).get i).2)
  have h2 : |∑ i : Fin (a.zip b).length, ((a.zip b).get i).1 * ((a.zip b).get i).2| ≤
      Real.sqrt ((∑ i : Fin (a.zip b).length, ((a.zip b).get i).1 ^ 2) *
        ∑ i : Fin (a.zip b).length, ((a.zip b).get i).2 ^ 2) := by
    rw [← Real.sqrt_sq_eq_abs]
    exact Real.sqrt_le_sqrt h
  rw [Real.sqrt_mul (Finset.sum_nonneg (fun i _ => sq_nonneg _))] at h2
  simpa [pow_two] using h2

/-- The `zip` already truncates: zipping the explicitly truncated lists
changes nothing. -/
theorem zip_take_min : ∀ (a b : List ℝ),
    (a.take (min a.length b.length)).zip (b.take (min a.length b.length)) = a.zip b
  | [], _ => by simp
  | _ :: _, [] => by simp
  | x :: xs, y :: ys => by
      simp only [List.length_cons, Nat.succ_min_succ, List.take_succ_cons, List.zip_cons_cons]
      rw [zip_take_min xs ys]

theorem zip_self {α : Type} : ∀ l : List α, l.zip l = l.map (fun x => (x, x))
  | [] => rfl
  | x :: xs => by simp [List.zip_cons_cons, zip_self xs]

theorem cosineSimilarity_comm (a b : List ℝ) :
    cosineSimilarity a b = cosineSimilarity b a := by
  unfold cosineSimilarity
  by_cases h1 : a = [] ∨ b = []
  · have h1' : b = [] ∨ a = [] := h1.symm
    rw [if_pos h1, if_pos h1']
  · have h1' : ¬ (b = [] ∨ a = []) := fun h => h1 h.symm
    rw [if_neg h1, if_neg h1']
    rw [dotTrunc_comm, normTruncA_swap a b, ← normTruncA_swap b a]
    by_cases h2 : normTruncA b a = 0 ∨ normTruncB b a = 0
    · have h2' : normTruncB b a = 0 ∨ normTruncA b a = 0 := h2.symm
      rw [if_pos h2', if_pos h2]
    · have h2' : ¬ (normTruncB b a = 0 ∨ normTruncA b a = 0) := fun h => h2 h.symm
      rw [if_neg h2', if_neg h2]
      rw [mul_comm]

theorem cosineSimilarity_bounds (a b : List ℝ) :
    -1 ≤ cosineSimilarity a b ∧ cosineSimilarity a b ≤ 1 := by
  unfold cosineSimilarity
  by_cases h1 : a = [] ∨ b = []
  · rw [if_pos h1]
    norm_num
  · rw [if_neg h1]
    by_cases h2 : normTruncA a b = 0 ∨ normTruncB a b = 0
    · rw [if_pos h2]
      norm_num
    · rw [if_neg h2]
      push_neg at h2
      have hA : 0 < normTruncA a b :=
        lt_of_le_of_ne (normTruncA_nonneg a b) (Ne.symm h2.1)
      have hB : 0 < normTruncB a b :=
        lt_of_le_of_ne (normTruncB_nonneg a b) (Ne.symm h2.2)
      have hden : 0 < Real.sqrt (normTruncA a b) * Real.sqrt (normTruncB a b) :=
        mul_pos (Real.sqrt_pos.mpr hA) (Real.sqrt_pos.mpr hB)
      have habs : |dotTrunc a b / (Real.sqrt (normTruncA a b) *
          Real.sqrt (normTruncB a b))| ≤ 1 := by
        rw [abs_div, abs_of_pos hden]
        exact (div_le_one hden).mpr (abs_dotTrunc_le_sqrt_mul_sqrt a b)
      exact abs_le.mp habs

theorem dotTrunc_self (a : List ℝ) : dotTrunc a a = normTruncA a a := by
  unfold dotTrunc normTruncA
  rw [zip_self, List.map_map, List.map_map]
  rfl

theorem cosineSimilarity_self (a : List ℝ) (h : normTruncA a a ≠ 0) :
    cosineSimilarity a a = 1 := by
  have ha : ¬ (a = [] ∨ a = []) := by
    intro h0
    apply h
    rcases h0 with h0 | h0 <;> simp [normTruncA, h0]
  have hBA : normTruncB a a = normTruncA a a := (normTruncA_swap a a).symm
  unfold cosineSimilarity
  rw [if_neg ha, if_neg (by simp [hBA, h]), dotTrunc_self, hBA,
    Real.mul_self_sqrt (normTruncA_nonneg a a)]
  exact div_self h

theorem cosineSimilarity_take (a b : List ℝ) :
    cosineSimilarity a b =
      cosineSimilarity (a.take (min a.length b.length))
        (b.take (min a.length b.length)) := by
  have hcond : (a.take (min a.length b.length) = [] ∨
      b.take (min a.length b.length) = []) ↔ (a = [] ∨ b = []) := by
    simp [List.take_eq_nil_iff, Nat.min_eq_zero_iff, List.length_eq_zero]
    tauto
  unfold cosineSimilarity dotTrunc normTruncA normTruncB
  rw [zip_take_min a b]
  by_cases h1 : a = [] ∨ b = []
  · have h1' := hcond.mpr h1
    rw [if_pos h1, if_pos h1']
  · have h1' : ¬ (a.take (min a.length b.length) = [] ∨
        b.take (min a.length b.length) = []) := fun h => h1 (hcond.mp h)
    rw [if_neg h1, if_neg h1']

/-! ## Classifier lemmas (towards claim C10) -/

theorem patternContribution_nonneg (h : PatternHit) : 0 ≤ patternContribution h := by
  unfold patternContribution
  by_cases ht : h.test
  · rw [if_pos ht]
    by_cases hm : 1 < h.gmatches
    · rw [if_pos hm]
      positivity
    · rw [if_neg hm]
      norm_num
  · rw [if_neg ht]

theorem patternContribution_pos (h : PatternHit) (ht : h.test = true) :
    0 < patternContribution h := by
  unfold patternContribution
  rw [if_pos ht]
  by_cases hm : 1 < h.gmatches
  · rw [if_pos hm]
    positivity
  · rw [if_neg hm]
    norm_num

theorem calculatePatternScore_nonneg (hits : List PatternHit) :
    0 ≤ calculatePatternScore hits := by
  apply List.sum_nonneg
  intro x hx
  rcases List.mem_map.mp hx with ⟨h, _, rfl⟩
  exact patternContribution_nonneg h

theorem calculatePatternScore_pos (hits : List PatternHit)
    (h : ∃ x ∈ hits, x.test = true) : 0 < calculatePatternScore hits := by
  induction hits with
  | nil => rcases h with ⟨x, hx, _⟩; exact absurd hx (List.not_mem_nil x)
  | cons y ys ih =>
      unfold calculatePatternScore at ih ⊢
      simp only [List.map_cons, List.sum_cons]
      rcases h with ⟨x, hx, hxt⟩
      rcases List.mem_cons.mp hx with rfl | hx
      · have h1 := patternContribution_pos x hxt
        have h2 := calculatePatternScore_nonneg ys
        unfold calculatePatternScore at h2
        linarith
      · have h1 := patternContribution_nonneg y
        have h2 := ih ⟨x, hx, hxt⟩
        linarith

theorem calculatePatternScore_eq_zero (hits : List PatternHit)
    (h : ∀ x ∈ hits, x.test = false) : calculatePatternScore hits = 0 := by
  unfold calculatePatternScore
  apply List.sum_eq_zero
  intro x hx
  rcases List.mem_map.mp hx with ⟨p, hp, rfl⟩
  unfold patternContribution
  rw [h p hp]
  simp

theorem symbol_le_maxOfScores (s : IntentScores) : s.symbol ≤ maxOfScores s :=
  le_max_left _ _

theorem file_le_maxOfScores (s : IntentScores) : s.file ≤ maxOfScores s :=
  le_trans (le_max_left _ _) (le_max_right _ _)

theorem explanation_le_maxOfScores (s : IntentScores) : s.explanation ≤ maxOfScores s :=
  le_trans (le_trans (le_max_left _ _) (le_max_right _ _)) (le_max_right _ _)

theorem howto_le_maxOfScores (s : IntentScores) : s.howto ≤ maxOfScores s :=
  le_trans (le_trans (le_trans (le_max_left _ _) (le_max_right _ _))
    (le_max_right _ _)) (le_max_right _ _)

theorem route_le_maxOfScores (s : IntentScores) : s.route ≤ maxOfScores s :=
  le_trans (le_trans (le_trans (le_trans (le_max_left _ _) (le_max_right _ _))
    (le_max_right _ _)) (le_max_right _ _)) (le_max_right _ _)

theorem error_le_maxOfScores (s : IntentScores) : s.error ≤ maxOfScores s :=
  le_trans (le_trans (le_trans (le_trans (le_max_right _ _) (le_max_right _ _))
    (le_max_right _ _)) (le_max_right _ _)) (le_max_right _ _)

theorem maxOfScores_rawScores_nonneg (qp : QueryPatterns) :
    0 ≤ maxOfScores (rawScores qp) :=
  le_trans (calculatePatternScore_nonneg qp.symbol) (symbol_le_maxOfScores (rawScores qp))

/-- Dividing every score by a nonnegative constant divides the maximum. -/
theorem maxOfScores_div (s : IntentScores) (m : ℚ) (hm : 0 ≤ m) :
    maxOfScores
        { symbol := s.symbol / m, file := s.file / m,
          explanation := s.explanation / m, howto := s.howto / m,
          route := s.route / m, error := s.error / m } = maxOfScores s / m := by
  unfold maxOfScores
  simp only
  rw [max_div_div_right hm, max_div_div_right hm, max_div_div_right hm,
    max_div_div_right hm, max_div_div_right hm]

/-- When some raw score is positive, the normalized maximum is exactly 1;
when every raw score is zero, the classifier falls back to the forced
explanation default `0.5`. -/
theorem classifyConfidence_cases (qp : QueryPatterns) :
    (0 < maxOfScores (rawScores qp) → (classifyTypeConfidence qp).2 = 1) ∧
    (maxOfScores (rawScores qp) = 0 → (classifyTypeConfidence qp).2 = 1/2) := by
  constructor
  · intro hm
    unfold classifyTypeConfidence
    simp only
    unfold calculateScores
    simp only
    rw [if_pos hm, if_neg (ne_of_gt hm)]
    rw [maxOfScores_div (rawScores qp) (maxOfScores (rawScores qp)) (le_of_lt hm)]
    exact div_self (ne_of_gt hm)
  · intro hm
    unfold classifyTypeConfidence
    simp only
    unfold calculateScores
    simp only
    have hneg : ¬ (0 < maxOfScores (rawScores qp)) := by
      rw [hm]
      exact lt_irrefl 0
    rw [if_pos hm, if_neg hneg]
    have h0 : ∀ q : ℚ, q ≤ 0 → 0 ≤ q → q = 0 := fun q h1 h2 => le_antisymm h1 h2
    have hsym : (rawScores qp).symbol = 0 :=
      h0 _ (hm ▸ symbol_le_maxOfScores (rawScores qp))
        (calculatePatternScore_nonneg qp.symbol)
    have hfil : (rawScores qp).file = 0 :=
      h0 _ (hm ▸ file_le_maxOfScores (rawScores qp))
        (calculatePatternScore_nonneg qp.file)
    have hhow : (rawScores qp).howto = 0 :=
      h0 _ (hm ▸ howto_le_maxOfScores (rawScores qp))
        (calculatePatternScore_nonneg qp.howto)
    have hrou : (rawScores qp).route = 0 :=
      h0 _ (hm ▸ route_le_maxOfScores (rawScores qp))
        (calculatePatternScore_nonneg qp.route)
    have herr : (rawScores qp).error = 0 :=
      h0 _ (hm ▸ error_le_maxOfScores (rawScores qp))
        (calculatePatternScore_nonneg qp.error)
    unfold maxOfScores
    simp only [hsym, hfil, hhow, hrou, herr]
    norm_num

/-- C10: for every query, `classifyIntent` returns confidence exactly
`1.0` when at least one intent pattern of any type matches (per-type raw
scores are normalized by the maximal raw score, so the winner's
normalized score is `1`), exactly `0.5` when no pattern matches (the
forced explanation default), and never any other value. -/
theorem c10_classifier_confidence (qp : QueryPatterns) :
    ((∃ x ∈ allHits qp, x.test = true) → (classifyTypeConfidence qp).2 = 1) ∧
    ((∀ x ∈ allHits qp, x.test = false) → (classifyTypeConfidence qp).2 = 1/2) ∧
    ((classifyTypeConfidence qp).2 = 1 ∨ (classifyTypeConfidence qp).2 = 1/2) := by
  have hc := classifyConfidence_cases qp
  have hraw : ∀ l : List PatternHit, (∃ x ∈ l, x.test = true) →
      calculatePatternScore l ≤ maxOfScores (rawScores qp) →
      0 < maxOfScores (rawScores qp) :=
    fun l hex hle => lt_of_lt_of_le (calculatePatternScore_pos l hex) hle
  refine ⟨?_, ?_, ?_⟩
  · rintro ⟨x, hx, hxt⟩
    apply hc.1
    unfold allHits at hx
    simp only [List.mem_append] at hx
    rcases hx with ((((hx | hx) | hx) | hx) | hx) | hx
    · exact hraw qp.symbol ⟨x, hx, hxt⟩ (symbol_le_maxOfScores (rawScores qp))
    · exact hraw qp.file ⟨x, hx, hxt⟩ (file_le_maxOfScores (rawScores qp))
    · exact hraw qp.explanation ⟨x, hx, hxt⟩ (explanation_le_maxOfScores (rawScores qp))
    · exact hraw qp.howto ⟨x, hx, hxt⟩ (howto_le_maxOfScores (rawScores qp))
    · exact hraw qp.route ⟨x, hx, hxt⟩ (route_le_maxOfScores (rawScores qp))
    · exact hraw qp.error ⟨x, hx, hxt⟩ (error_le_maxOfScores (rawScores qp))
  · intro h
    apply hc.2
    have hmem : ∀ l : List PatternHit, (∀ x ∈ l, x ∈ allHits qp) →
        calculatePatternScore l = 0 :=
      fun l hl => calculatePatternScore_eq_zero l (fun x hx => h x (hl x hx))
    have h1 := hmem qp.symbol (fun x hx => by
      unfold allHits
      simp only [List.mem_append]
      exact Or.inl (Or.inl (Or.inl (Or.inl (Or.inl hx)))))
    have h2 := hmem qp.file (fun x hx => by
      unfold allHits
      simp only [List.mem_append]
      exact Or.inl (Or.inl (Or.inl (Or.inl (Or.inr hx)))))
    have h3 := hmem qp.explanation (fun x hx => by
      unfold allHits
      simp only [List.mem_append]
      exact Or.inl (Or.inl (Or.inl (Or.inr hx))))
    have h4 := hmem qp.howto (fun x hx => by
      unfold allHits
      simp only [List.mem_append]
      exact Or.inl (Or.inl (Or.inr hx)))
    have h5 := hmem qp.route (fun x hx => by
      unfold allHits
      simp only [List.mem_append]
      exact Or.inl (Or.inr hx))
    have h6 := hmem qp.error (fun x hx => by
      unfold allHits
      simp only [List.mem_append]
      exact Or.inr hx)
    unfold maxOfScores rawScores
    simp only [h1, h2, h3, h4, h5, h6, max_self]
  · rcases (maxOfScores_rawScores_nonneg qp).lt_or_eq with hm | hm
    · exact Or.inl (hc.1 hm)
    · exact Or.inr (hc.2 hm.symm)

/-- Witness for C10 at concrete pattern outcomes. -/
theorem c10_witness :
    (classifyTypeConfidence qpOneMatch).2 = 1 ∧
    (classifyTypeConfidence qpNoMatch).2 = 1/2 :=
  ⟨(c10_classifier_confidence qpOneMatch).1
      ⟨{ test := true, gmatches := 1 }, by decide, rfl⟩,
   (c10_classifier_confidence qpNoMatch).2.1
      ((by decide : ∀ x ∈ allHits qpNoMatch, x.test = false))⟩

/-- C8 (amended): `rerank` returns only chunks drawn from the input
candidates — it recomputes scores by `combinedScore = w_orig×originalScore
+ w_rerank×rerankScore`, reorders descending by `combinedScore` and
truncates to `topK`, never introducing a chunk absent from the input —
and the combining weights are renormalized to sum to 1 whenever the
supplied pair has a nonzero sum, so supplied weights (1,1) become
(0.5,0.5).  (For a zero-sum pair the division produces no valid
renormalization; see the counterexample.) -/
theorem c8_rerank_candidates_and_weights (ow rw : ℚ) (hw : ow + rw ≠ 0)
    (ce : String → Chunk → ℚ) (query : String) (results : List SearchResult)
    (topK : Nat) :
    (mkRerankerWeights ow rw).original + (mkRerankerWeights ow rw).rerank = 1 ∧
    (∀ o ∈ rerank ce (mkRerankerWeights ow rw) query results topK,
      ∃ r ∈ results, o.chunk = r.chunk ∧ o.originalScore = r.score ∧
        o.rerankScore = ce query r.chunk ∧
        o.combinedScore = (mkRerankerWeights ow rw).original * r.score +
          (mkRerankerWeights ow rw).rerank * ce query r.chunk) ∧
    (rerank ce (mkRerankerWeights ow rw) query results topK).length ≤ topK ∧
    (rerank ce (mkRerankerWeights ow rw) query results topK).Pairwise
      (fun a b => b.combinedScore ≤ a.combinedScore) := by
  refine ⟨?_, ?_, ?_, ?_⟩
  · unfold mkRerankerWeights
    simp only
    rw [div_add_div_same, div_self hw]
  · intro o ho
    unfold rerank at ho
    by_cases he : results.isEmpty
    · rw [if_pos he] at ho
      exact absurd ho (List.not_mem_nil o)
    · rw [if_neg he] at ho
      have ho2 := List.take_subset _ _ ho
      rw [sortByDesc_mem] at ho2
      rcases List.mem_map.mp ho2 with ⟨r, hr, rfl⟩
      exact ⟨r, hr, rfl, rfl, rfl, rfl⟩
  · unfold rerank
    by_cases he : results.isEmpty
    · rw [if_pos he]
      simp
    · rw [if_neg he]
      exact List.length_take_le _ _
  · unfold rerank
    by_cases he : results.isEmpty
    · rw [if_pos he]
      exact List.Pairwise.nil
    · rw [if_neg he]
      exact (sortByDesc_pairwise _ _).sublist (List.take_sublist _ _)

/-- C8 counterexample to the claim as stated: for the supplied pair
(0, 0) — sum zero — the "renormalized" weights do not sum to 1 (in JS
they are `NaN`; in the `ℚ` model, `0/0 = 0`; under neither semantics is
the sum 1). -/
theorem c8_counterexample :
    (mkRerankerWeights 0 0).original + (mkRerankerWeights 0 0).rerank ≠ 1 := by
  unfold mkRerankerWeights
  norm_num

/-- Witness for C8 at the claim's own example (1,1) ↦ (0.5, 0.5). -/
theorem c8_witness :
    ((mkRerankerWeights 1 1).original + (mkRerankerWeights 1 1).rerank = 1) ∧
    (mkRerankerWeights 1 1).original = 1/2 ∧ (mkRerankerWeights 1 1).rerank = 1/2 :=
  ⟨(c8_rerank_candidates_and_weights 1 1 (by norm_num) (fun _ _ => 0) "q" [] 5).1,
   by unfold mkRerankerWeights; norm_num,
   by unfold mkRerankerWeights; norm_num⟩

/-! ## Cache lemmas (towards claim C7) -/

theorem mapSet_map_fst (cache : List (String × CacheEntry)) (k : String)
    (v : CacheEntry) :
    (mapSet cache k v).map Prod.fst =
      if k ∈ cache.map Prod.fst then cache.map Prod.fst
      else cache.map Prod.fst ++ [k] := by
  induction cache with
  | nil => simp [mapSet]
  | cons hd tl ih =>
      rcases hd with ⟨k', v'⟩
      simp only [mapSet]
      by_cases hk : k' = k
      · rw [if_pos hk]
        simp [hk]
      · rw [if_neg hk]
        simp only [List.map_cons, List.mem_cons]
        have hne : ¬ (k = k') := fun h => hk h.symm
        by_cases hmem : k ∈ tl.map Prod.fst
        · rw [if_pos (Or.inr hmem)]
          rw [ih, if_pos hmem]
        · rw [if_neg (by rintro (h | h); exact hne h; exact hmem h)]
          rw [ih, if_neg hmem]
          simp

theorem mapSet_keys_nodup (cache : List (String × CacheEntry)) (k : String)
    (v : CacheEntry) (hnd : (cache.map Prod.fst).Nodup) :
    ((mapSet cache k v).map Prod.fst).Nodup := by
  rw [mapSet_map_fst]
  by_cases hmem : k ∈ cache.map Prod.fst
  · rwa [if_pos hmem]
  · rw [if_neg hmem]
    rw [List.nodup_append]
    exact ⟨hnd, List.nodup_singleton k, by simpa using hmem⟩

theorem mapSet_length_le (cache : List (String × CacheEntry)) (k : String)
    (v : CacheEntry) : (mapSet cache k v).length ≤ cache.length + 1 := by
  have h := congrArg List.length (mapSet_map_fst cache k v)
  simp only [List.length_map] at h
  rw [h]
  by_cases hmem : k ∈ cache.map Prod.fst
  · rw [if_pos hmem]
    simp only [List.length_map]
    exact Nat.le_succ _
  · rw [if_neg hmem]
    simp

/-- The eviction pass, written out: filter away the keys of the first
`maxEntries / 5` entries in ascending `last_access` order. -/
theorem evictLRU_eq (m : Nat) (c : List (String × CacheEntry)) :
    evictLeastRecentlyUsed m c =
      c.filter (fun e =>
        !((((sortByAsc (fun e => (e.2.last_access : ℚ)) c).take (m / 5)).map
          Prod.fst).contains e.1)) := rfl

/-- Splitting a filter along `take`/`drop`. -/
theorem filter_take_drop_split {α : Type} (l : List α) (k : Nat) (p : α → Bool)
    (htake : (l.take k).filter p = [])
    (hdrop : (l.drop k).filter p = l.drop k) :
    l.filter p = l.drop k := by
  have hfa : (l.take k ++ l.drop k).filter p = l.filter p := by
    rw [List.take_append_drop]
  rw [← hfa, List.filter_append, htake, hdrop, List.nil_append]

/-- The eviction pass keeps, up to permutation, exactly the sorted-order
suffix past the first `maxEntries / 5` entries. -/
theorem evictLRU_perm (m : Nat) (c : List (String × CacheEntry))
    (hnd : (c.map Prod.fst).Nodup) :
    (evictLeastRecentlyUsed m c).Perm
      ((sortByAsc (fun e => (e.2.last_access : ℚ)) c).drop (m / 5)) := by
  rw [evictLRU_eq]
  have hperm : (sortByAsc (fun e : String × CacheEntry => ((e.2.last_access : ℚ))) c).Perm c :=
    sortByAsc_perm _ c
  have hsnd : ((sortByAsc (fun e : String × CacheEntry => ((e.2.last_access : ℚ))) c).map
      Prod.fst).Nodup := ((hperm.map Prod.fst).nodup_iff).mpr hnd
  have hfil := (hperm.symm).filter (fun e : String × CacheEntry =>
    !((((sortByAsc (fun e : String × CacheEntry => ((e.2.last_access : ℚ))) c).take
      (m / 5)).map Prod.fst).contains e.1))
  refine hfil.trans ?_
  have hdisj : List.Disjoint
      (((sortByAsc (fun e : String × CacheEntry => ((e.2.last_access : ℚ))) c).take
        (m / 5)).map Prod.fst)
      (((sortByAsc (fun e : String × CacheEntry => ((e.2.last_access : ℚ))) c).drop
        (m / 5)).map Prod.fst) := by
    have h2 := hsnd
    rw [show sortByAsc (fun e : String × CacheEntry => ((e.2.last_access : ℚ))) c =
        (sortByAsc (fun e : String × CacheEntry => ((e.2.last_access : ℚ))) c).take (m / 5) ++
        (sortByAsc (fun e : String × CacheEntry => ((e.2.last_access : ℚ))) c).drop (m / 5)
      from (List.take_append_drop _ _).symm, List.map_append, List.nodup_append] at h2
    exact h2.2.2
  have htake : ((sortByAsc (fun e : String × CacheEntry => ((e.2.last_access : ℚ))) c).take
      (m / 5)).filter (fun e =>
        !((((sortByAsc (fun e : String × CacheEntry => ((e.2.last_access : ℚ))) c).take
          (m / 5)).map Prod.fst).contains e.1)) = [] := by
    apply List.filter_eq_nil_iff.mpr
    intro e he
    have hmem : e.1 ∈ ((sortByAsc (fun e : String × CacheEntry =>
        ((e.2.last_access : ℚ))) c).take (m / 5)).map Prod.fst :=
      List.mem_map_of_mem Prod.fst he
    have hc := List.elem_eq_true_of_mem hmem
    simp only [List.contains, hc, Bool.not_true, Bool.false_eq_true,
      not_false_eq_true]
  have hdrop : ((sortByAsc (fun e : String × CacheEntry => ((e.2.last_access : ℚ))) c).drop
      (m / 5)).filter (fun e =>
        !((((sortByAsc (fun e : String × CacheEntry => ((e.2.last_access : ℚ))) c).take
          (m / 5)).map Prod.fst).contains e.1)) =
      (sortByAsc (fun e : String × CacheEntry => ((e.2.last_access : ℚ))) c).drop (m / 5) := by
    apply List.filter_eq_self.mpr
    intro e he
    have hmem : e.1 ∉ ((sortByAsc (fun e : String × CacheEntry =>
        ((e.2.last_access : ℚ))) c).take (m / 5)).map Prod.fst := by
      intro hin
      exact hdisj hin (List.mem_map_of_mem Prod.fst he)
    have hcf : (((sortByAsc (fun e : String × CacheEntry => ((e.2.last_access : ℚ))) c).take
        (m / 5)).map Prod.fst).contains e.1 = false := by
      rcases hb : (((sortByAsc (fun e : String × CacheEntry =>
          ((e.2.last_access : ℚ))) c).take (m / 5)).map Prod.fst).contains e.1 with _ | _
      · rfl
      · exact absurd (List.mem_of_elem_eq_true hb) hmem
    rw [hcf]
    simp
  rw [filter_take_drop_split _ (m / 5) _ htake hdrop]

theorem evictLRU_length (m : Nat) (c : List (String × CacheEntry))
    (hnd : (c.map Prod.fst).Nodup) :
    (evictLeastRecentlyUsed m c).length = c.length - m / 5 := by
  have h := (evictLRU_perm m c hnd).length_eq
  rw [h, List.length_drop, (sortByAsc_perm _ c).length_eq]

/-- Everything the eviction pass removes was accessed no later than
anything it keeps. -/
theorem evictLRU_lru (m : Nat) (c : List (String × CacheEntry))
    (hnd : (c.map Prod.fst).Nodup) :
    ∀ p ∈ c, p ∉ evictLeastRecentlyUsed m c →
      ∀ q ∈ evictLeastRecentlyUsed m c, p.2.last_access ≤ q.2.last_access := by
  intro p hp hpout q hq
  have hperm : (sortByAsc (fun e : String × CacheEntry => ((e.2.last_access : ℚ))) c).Perm c :=
    sortByAsc_perm _ c
  have hq2 : q ∈ (sortByAsc (fun e : String × CacheEntry => ((e.2.last_access : ℚ))) c).drop
      (m / 5) := ((evictLRU_perm m c hnd).mem_iff).mp hq
  have hpnotdrop : p ∉ (sortByAsc (fun e : String × CacheEntry =>
      ((e.2.last_access : ℚ))) c).drop (m / 5) := fun h =>
    hpout (((evictLRU_perm m c hnd).mem_iff).mpr h)
  have hpsrt : p ∈ sortByAsc (fun e : String × CacheEntry => ((e.2.last_access : ℚ))) c :=
    hperm.mem_iff.mpr hp
  have hpboth : p ∈ (sortByAsc (fun e : String × CacheEntry =>
      ((e.2.last_access : ℚ))) c).take (m / 5) ++
      (sortByAsc (fun e : String × CacheEntry => ((e.2.last_access : ℚ))) c).drop (m / 5) := by
    rw [List.take_append_drop]
    exact hpsrt
  have hptake : p ∈ (sortByAsc (fun e : String × CacheEntry =>
      ((e.2.last_access : ℚ))) c).take (m / 5) := by
    rcases List.mem_append.mp hpboth with h | h
    · exact h
    · exact absurd h hpnotdrop
  have hpw := sortByAsc_pairwise (fun e : String × CacheEntry => ((e.2.last_access : ℚ))) c
  rw [← List.take_append_drop (m / 5)
    (sortByAsc (fun e : String × CacheEntry => ((e.2.last_access : ℚ))) c)] at hpw
  have hle := (List.pairwise_append.mp hpw).2.2 p hptake q hq2
  exact_mod_cast hle

/-- C7 (amended): for `maxEntries ≥ 5` — so that the bulk figure
`Math.floor(maxEntries * 0.2) = maxEntries / 5` is at least one entry —
starting from a cache within capacity whose keys are distinct, every
`set` leaves the entry count ≤ `maxEntries`; when the insertion
overflows the cap, one bulk pass evicts exactly `maxEntries / 5`
entries, all of them least-recently-accessed (each evicted entry's
`last_access` is ≤ that of every survivor).  For `maxEntries < 5` the
bulk figure is `0` and the hard cap is violated — see the
counterexample. -/
theorem c7_cache_capacity (maxEntries : Nat) (cache : List (String × CacheEntry))
    (key : String) (embedding : List ℚ) (now : Nat)
    (hm : 5 ≤ maxEntries) (hnd : (cache.map Prod.fst).Nodup)
    (hlen : cache.length ≤ maxEntries) :
    (cacheSet maxEntries cache key embedding now).length ≤ maxEntries ∧
    (maxEntries < (mapSet cache key (mkCacheEntry key embedding now)).length →
      (cacheSet maxEntries cache key embedding now).length =
        (mapSet cache key (mkCacheEntry key embedding now)).length - maxEntries / 5 ∧
      ∀ p ∈ mapSet cache key (mkCacheEntry key embedding now),
        p ∉ cacheSet maxEntries cache key embedding now →
        ∀ q ∈ cacheSet maxEntries cache key embedding now,
          p.2.last_access ≤ q.2.last_access) := by
  have hnd2 := mapSet_keys_nodup cache key (mkCacheEntry key embedding now) hnd
  have hlen2 := mapSet_length_le cache key (mkCacheEntry key embedding now)
  simp only [cacheSet]
  by_cases hover : maxEntries < (mapSet cache key (mkCacheEntry key embedding now)).length
  · rw [if_pos hover]
    have h15 : 1 ≤ maxEntries / 5 := (Nat.one_le_div_iff (by norm_num)).mpr hm
    have hevlen := evictLRU_length maxEntries _ hnd2
    refine ⟨?_, fun _ => ⟨hevlen, evictLRU_lru maxEntries _ hnd2⟩⟩
    omega
  · rw [if_neg hover]
    exact ⟨by omega, fun h => absurd h hover⟩

/-- C7 counterexample to the claim as stated: with `maxEntries = 1`,
inserting a second distinct key overflows the cap, but the eviction pass
removes `Math.floor(1 * 0.2) = 0` entries, so the count stays at 2 > 1 —
the hard capacity is not enforced. -/
theorem c7_counterexample :
    ¬ ((cacheSet 1 (cacheSet 1 [] "k1" [] 0) "k2" [] 1).length ≤ 1) := by decide

/-- Witness for C7 with `maxEntries = 5` and a sixth distinct key. -/
theorem c7_witness : (cacheSet 5 cacheFive "f" [] 5).length ≤ 5 :=
  (c7_cache_capacity 5 cacheFive "f" [] 5 (by decide) (by decide) (by decide)).1

/-- C6 (amended): `cosineSimilarity` is symmetric, bounded in `[-1, 1]`,
equals `1` for every vector compared with itself whose truncated norm is
nonzero, compares only the first `min(len a, len b)` components, and
returns `0` — never NaN — whenever either vector is empty or either
truncated norm is `0`.  (As stated, the claim also asserted self-similarity
`1` for zero vectors, which contradicts the zero-norm guard — see the
counterexample.) -/
theorem c6_cosine_similarity (a b : List ℝ) :
    cosineSimilarity a b = cosineSimilarity b a ∧
    (-1 ≤ cosineSimilarity a b ∧ cosineSimilarity a b ≤ 1) ∧
    (normTruncA a a ≠ 0 → cosineSimilarity a a = 1) ∧
    cosineSimilarity a b =
      cosineSimilarity (a.take (min a.length b.length))
        (b.take (min a.length b.length)) ∧
    ((a = [] ∨ b = []) → cosineSimilarity a b = 0) ∧
    ((normTruncA a b = 0 ∨ normTruncB a b = 0) → cosineSimilarity a b = 0) :=
  ⟨cosineSimilarity_comm a b, cosineSimilarity_bounds a b,
   cosineSimilarity_self a, cosineSimilarity_take a b,
   fun h => by unfold cosineSimilarity; rw [if_pos h],
   fun h => by
     unfold cosineSimilarity
     by_cases h1 : a = [] ∨ b = []
     · rw [if_pos h1]
     · rw [if_neg h1, if_pos h]⟩

/-- C6 counterexample to the claim as stated: the zero vector compared
with itself hits the zero-norm guard and yields `0`, not `1`. -/
theorem c6_counterexample :
    cosineSimilarity [(0 : ℝ)] [(0 : ℝ)] = 0 ∧ (0 : ℝ) ≠ 1 := by
  constructor
  · unfold cosineSimilarity
    rw [if_neg (by simp)]
    rw [if_pos (Or.inl (by simp [normTruncA, dotTrunc]))]
  · norm_num

/-- Witness for C6: the vector `[1]` compared with itself gives
similarity exactly `1`. -/
theorem c6_witness : cosineSimilarity [(1 : ℝ)] [(1 : ℝ)] = 1 :=
  (c6_cosine_similarity [(1 : ℝ)] [(1 : ℝ)]).2.2.1
    (by simp [normTruncA])

/-! ## BM25 lemmas (towards claim C5) -/

theorem bm25Score_eq_zero_of_no_overlap (log : ℚ → ℚ) (chunks : List Chunk)
    (c : Chunk) (qts : List String)
    (h : ∀ t ∈ qts, t ∉ tokenize c.content) :
    bm25Score log chunks c qts = 0 := by
  unfold bm25Score
  apply List.sum_eq_zero
  intro x hx
  rcases List.mem_map.mp hx with ⟨t, ht, rfl⟩
  unfold bm25Weight
  simp only
  rw [if_neg (fun hc => h t ht (List.mem_of_elem_eq_true hc))]

theorem filterMap_pos_eq {α : Type} (f : α → ℚ) (l : List α) :
    l.filterMap (fun c => if 0 < f c then some (c, f c) else none) =
      (l.filter (fun c => decide (0 < f c))).map (fun c => (c, f c)) := by
  induction l with
  | nil => rfl
  | cons x xs ih =>
      simp only [List.filterMap_cons, List.filter_cons]
      by_cases h : 0 < f x
      · rw [if_pos h]
        simp [h, ih]
      · rw [if_neg h]
        simp [h, ih]

/-- C5 (amended): a chunk sharing no tokenized term with the query has
summed BM25 score 0 (and is excluded); but the guard actually excludes
exactly the chunks whose summed stored-weight score is ≤ 0 — zero or
negative total weight also excludes a chunk that does share terms (idf
can be zero or negative, see the counterexample).  The kept chunks are
exactly the positively-scored ones in corpus iteration order, sorted
descending by summed score with ties keeping corpus order (stable sort)
and truncated to the requested limit. -/
theorem c5_bm25_zero_overlap_and_order (log : ℚ → ℚ) (chunks : List Chunk)
    (queryText : String) (limit : Nat) :
    (∀ c ∈ chunks, (∀ t ∈ tokenize queryText, t ∉ tokenize c.content) →
        bm25Score log chunks c (tokenize queryText) = 0) ∧
    bm25Kept log chunks (tokenize queryText) =
      (chunks.filter
        (fun c => decide (0 < bm25Score log chunks c (tokenize queryText)))).map
        (fun c => (c, bm25Score log chunks c (tokenize queryText))) ∧
    (bm25Search log chunks queryText limit).Pairwise (fun a b => b.2 ≤ a.2) ∧
    (bm25Search log chunks queryText limit).length ≤ limit ∧
    (∀ s : ℚ,
      (sortByDesc (fun p : Chunk × ℚ => p.2)
          (bm25Kept log chunks (tokenize queryText))).filter
          (fun p : Chunk × ℚ => p.2 = s) =
        (bm25Kept log chunks (tokenize queryText)).filter
          (fun p : Chunk × ℚ => p.2 = s)) := by
  refine ⟨?_, ?_, ?_, ?_, ?_⟩
  · intro c _ h
    exact bm25Score_eq_zero_of_no_overlap log chunks c (tokenize queryText) h
  · unfold bm25Kept
    exact filterMap_pos_eq (fun c => bm25Score log chunks c (tokenize queryText)) chunks
  · unfold bm25Search
    exact (sortByDesc_pairwise _ _).sublist (List.take_sublist _ _)
  · unfold bm25Search
    exact List.length_take_le _ _
  · intro s
    exact sortByDesc_filter_stable (fun p : Chunk × ℚ => p.2) _ s

/-- C5 counterexample to the claim as stated: in the two-chunk corpus
above, `chunkFoo` shares the tokenized term `"foo"` with the query
`"foo"`, yet its stored weight is `tf × idf = 1 × log 1 = 0`, so its
summed score is `0` and it is excluded from the BM25 results — refuting
"score is 0 iff no term is shared" and "exactly the chunks with zero
term overlap are excluded". -/
theorem c5_counterexample :
    bm25Search linLog [chunkFoo, chunkBar] "foo" 10 = [] ∧
    "foo" ∈ tokenize chunkFoo.content ∧ "foo" ∈ tokenize "foo" := by
  have htok : tokenize "foo" = ["foo"] := by decide
  have hdfA : docFreq [chunkFoo, chunkBar] "foo" = 1 := by decide
  have hwA : bm25Weight linLog [chunkFoo, chunkBar] chunkFoo "foo" = 0 := by
    simp [bm25Weight, hdfA, linLog]
    norm_num
  have hsA : bm25Score linLog [chunkFoo, chunkBar] chunkFoo (tokenize "foo") = 0 := by
    simp [bm25Score, htok, hwA]
  have hsB : bm25Score linLog [chunkFoo, chunkBar] chunkBar (tokenize "foo") = 0 := by
    simp [bm25Score, htok, bm25Weight]
    decide
  refine ⟨?_, by decide, by decide⟩
  simp [bm25Search, bm25Kept, hsA, hsB, sortByDesc]

/-- Witness for C5 at a concrete zero-overlap corpus: the query
`"nothing"` shares no term with `chunkFoo`, and its score is `0`. -/
theorem c5_witness :
    bm25Score linLog [chunkFoo, chunkBar] chunkFoo (tokenize "nothing") = 0 :=
  (c5_bm25_zero_overlap_and_order linLog [chunkFoo, chunkBar] "nothing" 10).1
    chunkFoo (by decide) (by decide)

/-! ## Deduplication lemmas (towards claims C2, C3) -/

theorem contains_iff_mem (l : List String) (a : String) :
    l.contains a = true ↔ a ∈ l :=
  ⟨List.mem_of_elem_eq_true, List.elem_eq_true_of_mem⟩

theorem dedupByAux_not_seen {α : Type} (key : α → String) :
    ∀ (l : List α) (seen : List String) (r : α),
      r ∈ dedupByAux key l seen → key r ∉ seen
  | [], _, r, hr => by simp [dedupByAux] at hr
  | x :: xs, seen, r, hr => by
      simp only [dedupByAux] at hr
      by_cases hx : seen.contains (key x) = true
      · rw [if_pos hx] at hr
        exact dedupByAux_not_seen key xs seen r hr
      · rw [if_neg hx] at hr
        rcases List.mem_cons.mp hr with rfl | hr2
        · exact fun hmem => hx ((contains_iff_mem seen (key r)).mpr hmem)
        · have h2 := dedupByAux_not_seen key xs (key x :: seen) r hr2
          exact fun hmem => h2 (List.mem_cons_of_mem _ hmem)

/-- Every survivor of the seen-set filter is the first element of the
input carrying its key. -/
theorem dedupByAux_find {α : Type} (key : α → String) :
    ∀ (l : List α) (seen : List String) (r : α),
      r ∈ dedupByAux key l seen →
      l.find? (fun x => key x == key r) = some r
  | [], _, r, hr => by simp [dedupByAux] at hr
  | x :: xs, seen, r, hr => by
      simp only [dedupByAux] at hr
      by_cases hx : seen.contains (key x) = true
      · rw [if_pos hx] at hr
        have hnot := dedupByAux_not_seen key xs seen r hr
        have hne : ¬ ((key x == key r) = true) := by
          intro hbe
          apply hnot
          rw [← (beq_iff_eq).mp hbe]
          exact (contains_iff_mem seen (key x)).mp hx
        have hbe : (key x == key r) = false := by
          cases hb : (key x == key r) with
          | false => rfl
          | true => exact absurd hb hne
        simp only [List.find?, hbe]
        exact dedupByAux_find key xs seen r hr
      · rw [if_neg hx] at hr
        rcases List.mem_cons.mp hr with rfl | hr2
        · simp only [List.find?, beq_self_eq_true]
        · have hnot := dedupByAux_not_seen key xs (key x :: seen) r hr2
          have hne : ¬ ((key x == key r) = true) := by
            intro hbe
            exact hnot (by rw [← (beq_iff_eq).mp hbe]; exact List.mem_cons_self _ _)
          have hbe : (key x == key r) = false := by
            cases hb : (key x == key r) with
            | false => rfl
            | true => exact absurd hb hne
          simp only [List.find?, hbe]
          exact dedupByAux_find key xs (key x :: seen) r hr2

theorem dedupByAux_keys_nodup {α : Type} (key : α → String) :
    ∀ (l : List α) (seen : List String),
      ((dedupByAux key l seen).map key).Nodup
  | [], _ => by simp [dedupByAux]
  | x :: xs, seen => by
      simp only [dedupByAux]
      by_cases hx : seen.contains (key x) = true
      · rw [if_pos hx]
        exact dedupByAux_keys_nodup key xs seen
      · rw [if_neg hx]
        simp only [List.map_cons, List.nodup_cons]
        refine ⟨?_, dedupByAux_keys_nodup key xs (key x :: seen)⟩
        intro hmem
        rcases List.mem_map.mp hmem with ⟨r, hr, hkr⟩
        exact dedupByAux_not_seen key xs (key x :: seen) r hr
          (by rw [hkr]; exact List.mem_cons_self _ _)

theorem dedupByAux_subset {α : Type} (key : α → String) :
    ∀ (l : List α) (seen : List String) (r : α),
      r ∈ dedupByAux key l seen → r ∈ l
  | [], _, r, hr => by simp [dedupByAux] at hr
  | x :: xs, seen, r, hr => by
      simp only [dedupByAux] at hr
      by_cases hx : seen.contains (key x) = true
      · rw [if_pos hx] at hr
        exact List.mem_cons_of_mem x (dedupByAux_subset key xs seen r hr)
      · rw [if_neg hx] at hr
        rcases List.mem_cons.mp hr with rfl | hr2
        · exact List.mem_cons_self _ _
        · exact List.mem_cons_of_mem x (dedupByAux_subset key xs (key x :: seen) r hr2)

/-- A `foldl` with per-item append is `flatMap`. -/
theorem foldl_append_eq_flatMap {α β : Type} (g : α → List β) :
    ∀ (l : List α) (init : List β),
      l.foldl (fun acc q => acc ++ g q) init = init ++ l.flatMap g
  | [], init => by simp
  | x :: xs, init => by
      simp only [List.foldl_cons, List.flatMap_cons]
      rw [foldl_append_eq_flatMap g xs (init ++ g x)]
      simp

/-- The imperative accumulation of `searchRelevantContext` is the
concatenation, over expanded queries in order, of the boosted results of
the queries whose search succeeded. -/
theorem allBoostedResults_eq (env : OrchestratorEnv) (userMessage : String)
    (intent : QueryIntent) :
    allBoostedResults env userMessage intent =
      (enhanceQuery userMessage intent).flatMap (fun q =>
        match env.search
            { text := q, type := intent.type,
              filters := createFiltersFromIntent intent } 8 with
        | Except.ok rs => rs.map (boostResult intent.confidence)
        | Except.error _ => []) := by
  unfold allBoostedResults
  have hstep : (fun (acc : List SearchResult) (q : String) =>
      match env.search
          { text := q, type := intent.type,
            filters := createFiltersFromIntent intent } 8 with
      | Except.ok rs => acc ++ rs.map (boostResult intent.confidence)
      | Except.error _ => acc) =
      (fun acc q => acc ++
        (match env.search
            { text := q, type := intent.type,
              filters := createFiltersFromIntent intent } 8 with
        | Except.ok rs => rs.map (boostResult intent.confidence)
        | Except.error _ => [])) := by
    funext acc q
    cases env.search
        { text := q, type := intent.type,
          filters := createFiltersFromIntent intent } 8 with
    | ok rs => rfl
    | error e => simp
  rw [hstep, foldl_append_eq_flatMap, List.nil_append]

theorem deduplicateResults_find (results : List SearchResult) (r : SearchResult)
    (hr : r ∈ deduplicateResults results) :
    results.find? (fun x => x.chunk.id == r.chunk.id) = some r := by
  unfold deduplicateResults dedupBy at hr
  rw [sortByDesc_mem] at hr
  exact dedupByAux_find (fun x : SearchResult => x.chunk.id) results [] r hr

theorem deduplicateResults_nodup (results : List SearchResult) :
    ((deduplicateResults results).map (fun r => r.chunk.id)).Nodup := by
  unfold deduplicateResults dedupBy
  have hperm := (sortByDesc_perm (fun r : SearchResult => r.score)
    (dedupByAux (fun r : SearchResult => r.chunk.id) results [])).map
    (fun r : SearchResult => r.chunk.id)
  exact hperm.nodup_iff.mpr
    (dedupByAux_keys_nodup (fun x : SearchResult => x.chunk.id) results [])

/-- C3 (amended): each expanded query's results have their score
multiplied by the boost factor `(0.5 + 0.5 × intent.confidence)`; when
the same chunk id appears in the results of several expanded queries,
the merged list keeps exactly one occurrence per chunk id — the FIRST
occurrence in query-concatenation order, not the one with the highest
boosted score (see the counterexample) — then sorts descending by score
(stably) and truncates to at most 6 results. -/
theorem c3_boost_dedup_sort_truncate (env : OrchestratorEnv)
    (userMessage : String) (intent : QueryIntent) :
    (searchRelevantContext env userMessage intent).length ≤ 6 ∧
    ((searchRelevantContext env userMessage intent).map
      (fun r => r.chunk.id)).Nodup ∧
    (searchRelevantContext env userMessage intent).Pairwise
      (fun a b => b.score ≤ a.score) ∧
    (∀ r ∈ searchRelevantContext env userMessage intent,
      (allBoostedResults env userMessage intent).find?
        (fun x => x.chunk.id == r.chunk.id) = some r) ∧
    (∀ r ∈ allBoostedResults env userMessage intent,
      ∃ q ∈ enhanceQuery userMessage intent, ∃ rs,
        env.search
            { text := q, type := intent.type,
              filters := createFiltersFromIntent intent } 8 = Except.ok rs ∧
        ∃ r0 ∈ rs, r = boostResult intent.confidence r0 ∧
          r.score = r0.score * (1/2 + intent.confidence * (1/2))) := by
  refine ⟨?_, ?_, ?_, ?_, ?_⟩
  · unfold searchRelevantContext
    exact List.length_take_le _ _
  · unfold searchRelevantContext
    exact List.Nodup.sublist
      ((List.take_sublist _ _).map _)
      (deduplicateResults_nodup (allBoostedResults env userMessage intent))
  · unfold searchRelevantContext deduplicateResults
    exact ((sortByDesc_pairwise _ _).sublist (List.take_sublist _ _))
  · intro r hr
    unfold searchRelevantContext at hr
    exact deduplicateResults_find _ r (List.take_subset _ _ hr)
  · intro r hr
    rw [allBoostedResults_eq] at hr
    rcases List.mem_flatMap.mp hr with ⟨q, hq, hmem⟩
    refine ⟨q, hq, ?_⟩
    cases hcase : env.search
        { text := q, type := intent.type,
          filters := createFiltersFromIntent intent } 8 with
    | ok rs =>
        rw [hcase] at hmem
        rcases List.mem_map.mp hmem with ⟨r0, hr0, rfl⟩
        exact ⟨rs, rfl, r0, hr0, rfl, rfl⟩
    | error e =>
        rw [hcase] at hmem
        simp at hmem

/-- The sufficiency gate fails exactly on an empty deduplicated list or
one whose scores are all ≤ 0.1 (the head being maximal). -/
theorem hasSufficientContext_false_of (rs : List SearchResult)
    (h : rs = [] ∨ ∀ r ∈ rs, r.score ≤ 1/10) :
    hasSufficientContext rs = false := by
  rcases h with rfl | h
  · rfl
  · cases rs with
    | nil => rfl
    | cons r rest =>
        show decide ((1 : ℚ)/10 < r.score) = false
        exact decide_eq_false (not_lt.mpr (h r (List.mem_cons_self r rest)))

/-- C2: whenever the deduplicated retrieval list is empty or its best
score is ≤ 0.1, both orchestrator entry points return the structured
insufficient-context message, and the generation backend
(`generate`/`generateStream`) is invoked zero times. -/
theorem c2_insufficient_context_gate (env : OrchestratorEnv)
    (userMessage : String) (intent : QueryIntent)
    (previousMessages : Option (List ChatMessage)) (threshold : ℚ)
    (h : searchRelevantContext env userMessage intent = [] ∨
      ∀ r ∈ searchRelevantContext env userMessage intent, r.score ≤ 1/10) :
    generateResponse env userMessage intent previousMessages threshold =
      (createNoResponseMessage env userMessage
        (searchRelevantContext env userMessage intent), 0) ∧
    generateStreamingResponse env userMessage intent previousMessages threshold =
      (createNoResponseMessage env userMessage
        (searchRelevantContext env userMessage intent), 0) := by
  have hgate := hasSufficientContext_false_of _ h
  have hTry : generateResponseTry env userMessage intent previousMessages threshold =
      (Except.ok (createNoResponseMessage env userMessage
        (searchRelevantContext env userMessage intent)), 0) := by
    unfold generateResponseTry
    rw [if_pos hgate]
  have hTryS : generateStreamingResponseTry env userMessage intent
      previousMessages threshold =
      (Except.ok (createNoResponseMessage env userMessage
        (searchRelevantContext env userMessage intent)), 0) := by
    unfold generateStreamingResponseTry
    rw [if_pos hgate]
  constructor
  · unfold generateResponse
    rw [hTry]
  · unfold generateStreamingResponse
    rw [hTryS]

/-- Witness for C2: with an index that returns no results, the
orchestrator answers with the insufficient-context message and performs
zero backend calls. -/
theorem c2_witness :
    generateResponse envNoHits "pergunta" intentPlain none (3/10) =
      (createNoResponseMessage envNoHits "pergunta"
        (searchRelevantContext envNoHits "pergunta" intentPlain), 0) :=
  (c2_insufficient_context_gate envNoHits "pergunta" intentPlain none (3/10)
    (Or.inl (by decide))).1

theorem searchRelevantContext_envTwoHits :
    searchRelevantContext envTwoHits "pergunta" intentRoute =
      [boostResult 1 resLow] := by
  have hq : enhanceQuery "pergunta" intentRoute =
      ["pergunta", "route", "router", "path", "page"] := by decide
  have hall : allBoostedResults envTwoHits "pergunta" intentRoute =
      [boostResult 1 resLow, boostResult 1 resHigh] := by
    rw [allBoostedResults_eq, hq]
    simp [envTwoHits, intentRoute]
  unfold searchRelevantContext deduplicateResults dedupBy
  rw [hall]
  simp [dedupByAux, boostResult, resLow, resHigh, chunkDup, sortByDesc, insertByDesc]

/-- C3 counterexample to the claim as stated: the chunk id `dup` appears
in two expanded queries' results with boosted scores `1/5` (original
query, first) and `9/10` (expanded query `"route"`, second); the merged
list keeps the FIRST occurrence, with the LOWER score `1/5` — not "the
one with the highest boosted score". -/
theorem c3_counterexample :
    (allBoostedResults envTwoHits "pergunta" intentRoute).map (fun r => r.chunk.id) =
      ["dup", "dup"] ∧
    (allBoostedResults envTwoHits "pergunta" intentRoute).map (fun r => r.score) =
      [1/5, 9/10] ∧
    (searchRelevantContext envTwoHits "pergunta" intentRoute).map (fun r => r.score) =
      [1/5] := by
  have hq : enhanceQuery "pergunta" intentRoute =
      ["pergunta", "route", "router", "path", "page"] := by decide
  have hall : allBoostedResults envTwoHits "pergunta" intentRoute =
      [boostResult 1 resLow, boostResult 1 resHigh] := by
    rw [allBoostedResults_eq, hq]
    simp [envTwoHits, intentRoute]
  refine ⟨?_, ?_, ?_⟩
  · rw [hall]
    simp [boostResult, resLow, resHigh, chunkDup]
  · rw [hall]
    simp [boostResult, resLow, resHigh]
    norm_num
  · rw [searchRelevantContext_envTwoHits]
    simp [boostResult, resLow]
    norm_num

/-- Witness for C3 at the concrete two-hit environment: the surviving
occurrence of chunk `dup` is the first one in concatenation order. -/
theorem c3_witness :
    (allBoostedResults envTwoHits "pergunta" intentRoute).find?
      (fun x => x.chunk.id == (boostResult 1 resLow).chunk.id) =
      some (boostResult 1 resLow) :=
  (c3_boost_dedup_sort_truncate envTwoHits "pergunta" intentRoute).2.2.2.1
    (boostResult 1 resLow)
    (by rw [searchRelevantContext_envTwoHits]; exact List.mem_singleton.mpr rfl)

/-! ## Orchestrator outcome lemmas (towards claims C1, C4, C9) -/

theorem generateResponseTry_insufficient (env : OrchestratorEnv)
    (userMessage : String) (intent : QueryIntent)
    (previousMessages : Option (List ChatMessage)) (threshold : ℚ)
    (hs : hasSufficientContext (searchRelevantContext env userMessage intent) = false) :
    generateResponseTry env userMessage intent previousMessages threshold =
      (Except.ok (createNoResponseMessage env userMessage
        (searchRelevantContext env userMessage intent)), 0) := by
  unfold generateResponseTry
  rw [if_pos hs]

theorem generateResponseTry_genError (env : OrchestratorEnv)
    (userMessage : String) (intent : QueryIntent)
    (previousMessages : Option (List ChatMessage)) (threshold : ℚ) (e : Unit)
    (hs : hasSufficientContext (searchRelevantContext env userMessage intent) = true)
    (hgen : env.generate userMessage
      (prepareContext (searchRelevantContext env userMessage intent)
        previousMessages) = Except.error e) :
    generateResponseTry env userMessage intent previousMessages threshold =
      (Except.error e, 1) := by
  unfold generateResponseTry
  rw [if_neg (by rw [hs]; simp), hgen]

theorem generateResponseTry_genOk (env : OrchestratorEnv)
    (userMessage : String) (intent : QueryIntent)
    (previousMessages : Option (List ChatMessage)) (threshold : ℚ)
    (resp : LLMResponse)
    (hs : hasSufficientContext (searchRelevantContext env userMessage intent) = true)
    (hgen : env.generate userMessage
      (prepareContext (searchRelevantContext env userMessage intent)
        previousMessages) = Except.ok resp) :
    generateResponseTry env userMessage intent previousMessages threshold =
      (if confidenceGate resp.confidence threshold then
        (Except.ok (createLowConfidenceMessage env userMessage
          (searchRelevantContext env userMessage intent)), 1)
      else
        (Except.ok (assembleMessage env resp
          (searchRelevantContext env userMessage intent)), 1)) := by
  unfold generateResponseTry
  rw [if_neg (by rw [hs]; simp), hgen]

theorem generateStreamingResponseTry_insufficient (env : OrchestratorEnv)
    (userMessage : String) (intent : QueryIntent)
    (previousMessages : Option (List ChatMessage)) (threshold : ℚ)
    (hs : hasSufficientContext (searchRelevantContext env userMessage intent) = false) :
    generateStreamingResponseTry env userMessage intent previousMessages threshold =
      (Except.ok (createNoResponseMessage env userMessage
        (searchRelevantContext env userMessage intent)), 0) := by
  unfold generateStreamingResponseTry
  rw [if_pos hs]

theorem generateStreamingResponseTry_streamOk (env : OrchestratorEnv)
    (userMessage : String) (intent : QueryIntent)
    (previousMessages : Option (List ChatMessage)) (threshold : ℚ)
    (gs : String → List String → Except Unit (List String)) (chunks : List String)
    (hgs : env.generateStream = some gs)
    (hs : hasSufficientContext (searchRelevantContext env userMessage intent) = true)
    (hok : gs userMessage
      (prepareContext (searchRelevantContext env userMessage intent)
        previousMessages) = Except.ok chunks) :
    generateStreamingResponseTry env userMessage intent previousMessages threshold =
      streamingTail env userMessage (searchRelevantContext env userMessage intent)
        { content := String.join chunks,
          tokensUsed := some (((String.join chunks).length + 3) / 4),
          processingTime := env.elapsed,
          confidence := some (4/5), citations := [] } threshold := by
  unfold generateStreamingResponseTry
  rw [if_neg (by rw [hs]; simp), hgs]
  simp only [hok]

theorem generateStreamingResponseTry_streamError (env : OrchestratorEnv)
    (userMessage : String) (intent : QueryIntent)
    (previousMessages : Option (List ChatMessage)) (threshold : ℚ)
    (gs : String → List String → Except Unit (List String)) (e : Unit)
    (hgs : env.generateStream = some gs)
    (hs : hasSufficientContext (searchRelevantContext env userMessage intent) = true)
    (herr : gs userMessage
      (prepareContext (searchRelevantContext env userMessage intent)
        previousMessages) = Except.error e) :
    generateStreamingResponseTry env userMessage intent previousMessages threshold =
      (Except.error e, 1) := by
  unfold generateStreamingResponseTry
  rw [if_neg (by rw [hs]; simp), hgs]
  simp only [herr]

theorem generateStreamingResponseTry_noStream_genError (env : OrchestratorEnv)
    (userMessage : String) (intent : QueryIntent)
    (previousMessages : Option (List ChatMessage)) (threshold : ℚ) (e : Unit)
    (hgs : env.generateStream = none)
    (hs : hasSufficientContext (searchRelevantContext env userMessage intent) = true)
    (hgen : env.generate userMessage
      (prepareContext (searchRelevantContext env userMessage intent)
        previousMessages) = Except.error e) :
    generateStreamingResponseTry env userMessage intent previousMessages threshold =
      (Except.error e, 1) := by
  unfold generateStreamingResponseTry
  rw [if_neg (by rw [hs]; simp), hgs]
  simp only [hgen]

theorem generateStreamingResponseTry_noStream_genOk (env : OrchestratorEnv)
    (userMessage : String) (intent : QueryIntent)
    (previousMessages : Option (List ChatMessage)) (threshold : ℚ)
    (resp : LLMResponse)
    (hgs : env.generateStream = none)
    (hs : hasSufficientContext (searchRelevantContext env userMessage intent) = true)
    (hgen : env.generate userMessage
      (prepareContext (searchRelevantContext env userMessage intent)
        previousMessages) = Except.ok resp) :
    generateStreamingResponseTry env userMessage intent previousMessages threshold =
      streamingTail env userMessage
        (searchRelevantContext env userMessage intent) resp threshold := by
  unfold generateStreamingResponseTry
  rw [if_neg (by rw [hs]; simp), hgs]
  simp only [hgen]

theorem streamingTail_shape (env : OrchestratorEnv) (userMessage : String)
    (searchResults : List SearchResult) (resp : LLMResponse) (threshold : ℚ) :
    streamingTail env userMessage searchResults resp threshold =
      (Except.ok (createLowConfidenceMessage env userMessage searchResults), 1) ∨
    streamingTail env userMessage searchResults resp threshold =
      (Except.ok (assembleMessage env resp searchResults), 1) := by
  unfold streamingTail
  by_cases h : confidenceGate resp.confidence threshold = true
  · rw [if_pos h]
    exact Or.inl rfl
  · rw [if_neg h]
    exact Or.inr rfl

/-- Every terminal message of `generateResponse` is one of the four
assistant-message shapes. -/
theorem generateResponse_shape (env : OrchestratorEnv) (userMessage : String)
    (intent : QueryIntent) (previousMessages : Option (List ChatMessage))
    (threshold : ℚ) :
    (generateResponse env userMessage intent previousMessages threshold).1 =
        createNoResponseMessage env userMessage
          (searchRelevantContext env userMessage intent) ∨
      (generateResponse env userMessage intent previousMessages threshold).1 =
        createLowConfidenceMessage env userMessage
          (searchRelevantContext env userMessage intent) ∨
      (∃ resp, (generateResponse env userMessage intent previousMessages threshold).1 =
        assembleMessage env resp (searchRelevantContext env userMessage intent)) ∨
      (generateResponse env userMessage intent previousMessages threshold).1 =
        createErrorMessage env userMessage := by
  by_cases hs : hasSufficientContext (searchRelevantContext env userMessage intent) = true
  · cases hgen : env.generate userMessage
        (prepareContext (searchRelevantContext env userMessage intent)
          previousMessages) with
    | error e =>
        have h := generateResponseTry_genError env userMessage intent
          previousMessages threshold e hs hgen
        unfold generateResponse
        rw [h]
        exact Or.inr (Or.inr (Or.inr rfl))
    | ok resp =>
        have h := generateResponseTry_genOk env userMessage intent
          previousMessages threshold resp hs hgen
        unfold generateResponse
        by_cases hcg : confidenceGate resp.confidence threshold = true
        · rw [h, if_pos hcg]
          exact Or.inr (Or.inl rfl)
        · rw [h, if_neg hcg]
          exact Or.inr (Or.inr (Or.inl ⟨resp, rfl⟩))
  · have hs' : hasSufficientContext (searchRelevantContext env userMessage intent) = false :=
      Bool.not_eq_true _ ▸ (Bool.eq_false_iff.mpr hs)
    have h := generateResponseTry_insufficient env userMessage intent
      previousMessages threshold hs'
    unfold generateResponse
    rw [h]
    exact Or.inl rfl

/-- Every terminal message of `generateStreamingResponse` is one of the
four assistant-message shapes. -/
theorem generateStreamingResponse_shape (env : OrchestratorEnv)
    (userMessage : String) (intent : QueryIntent)
    (previousMessages : Option (List ChatMessage)) (threshold : ℚ) :
    (generateStreamingResponse env userMessage intent previousMessages threshold).1 =
        createNoResponseMessage env userMessage
          (searchRelevantContext env userMessage intent) ∨
      (generateStreamingResponse env userMessage intent previousMessages threshold).1 =
        createLowConfidenceMessage env userMessage
          (searchRelevantContext env userMessage intent) ∨
      (∃ resp, (generateStreamingResponse env userMessage intent
          previousMessages threshold).1 =
        assembleMessage env resp (searchRelevantContext env userMessage intent)) ∨
      (generateStreamingResponse env userMessage intent previousMessages threshold).1 =
        createErrorMessage env userMessage := by
  by_cases hs : hasSufficientContext (searchRelevantContext env userMessage intent) = true
  · cases hgs : env.generateStream with
    | some gs =>
        cases hok : gs userMessage
            (prepareContext (searchRelevantContext env userMessage intent)
              previousMessages) with
        | error e =>
            have h := generateStreamingResponseTry_streamError env userMessage intent
              previousMessages threshold gs e hgs hs hok
            unfold generateStreamingResponse
            rw [h]
            exact Or.inr (Or.inr (Or.inr rfl))
        | ok chunks =>
            have h := generateStreamingResponseTry_streamOk env userMessage intent
              previousMessages threshold gs chunks hgs hs hok
            unfold generateStreamingResponse
            rw [h]
            rcases streamingTail_shape env userMessage
                (searchRelevantContext env userMessage intent)
                { content := String.join chunks,
                  tokensUsed := some (((String.join chunks).length + 3) / 4),
                  processingTime := env.elapsed,
                  confidence := some (4/5), citations := [] } threshold with ht | ht
            · rw [ht]
              exact Or.inr (Or.inl rfl)
            · rw [ht]
              exact Or.inr (Or.inr (Or.inl ⟨_, rfl⟩))
    | none =>
        cases hgen : env.generate userMessage
            (prepareContext (searchRelevantContext env userMessage intent)
              previousMessages) with
        | error e =>
            have h := generateStreamingResponseTry_noStream_genError env userMessage
              intent previousMessages threshold e hgs hs hgen
            unfold generateStreamingResponse
            rw [h]
            exact Or.inr (Or.inr (Or.inr rfl))
        | ok resp =>
            have h := generateStreamingResponseTry_noStream_genOk env userMessage
              intent previousMessages threshold resp hgs hs hgen
            unfold generateStreamingResponse
            rw [h]
            rcases streamingTail_shape env userMessage
                (searchRelevantContext env userMessage intent) resp threshold with ht | ht
            · rw [ht]
              exact Or.inr (Or.inl rfl)
            · rw [ht]
              exact Or.inr (Or.inr (Or.inl ⟨_, rfl⟩))
  · have hs' : hasSufficientContext (searchRelevantContext env userMessage intent) = false :=
      Bool.not_eq_true _ ▸ (Bool.eq_false_iff.mpr hs)
    have h := generateStreamingResponseTry_insufficient env userMessage intent
      previousMessages threshold hs'
    unfold generateStreamingResponse
    rw [h]
    exact Or.inl rfl

/-- C1: for every user question and any behaviour of the retrieval
index and generation backend — including exceptions thrown at any step —
`generateResponse` and `generateStreamingResponse` return a well-formed
assistant message (one of the four message shapes, each carrying role
"assistant") and never propagate an exception to the caller; whenever
the `try` body ends in an escaped exception, the returned message is the
fixed-shape apology message, whose citations are empty and whose
confidence is 0. -/
theorem c1_orchestrator_never_throws (env : OrchestratorEnv)
    (userMessage : String) (intent : QueryIntent)
    (previousMessages : Option (List ChatMessage)) (threshold : ℚ) :
    (generateResponse env userMessage intent previousMessages threshold).1.role =
      "assistant" ∧
    (generateStreamingResponse env userMessage intent previousMessages
      threshold).1.role = "assistant" ∧
    (∀ n, generateResponseTry env userMessage intent previousMessages threshold =
        (Except.error (), n) →
      generateResponse env userMessage intent previousMessages threshold =
        (createErrorMessage env userMessage, n)) ∧
    (∀ n, generateStreamingResponseTry env userMessage intent previousMessages
        threshold = (Except.error (), n) →
      generateStreamingResponse env userMessage intent previousMessages threshold =
        (createErrorMessage env userMessage, n)) ∧
    (createErrorMessage env userMessage).citations = [] ∧
    (createErrorMessage env userMessage).metadata.confidence = some 0 := by
  refine ⟨?_, ?_, ?_, ?_, rfl, rfl⟩
  · rcases generateResponse_shape env userMessage intent previousMessages threshold
      with h | h | ⟨resp, h⟩ | h <;> rw [h] <;> rfl
  · rcases generateStreamingResponse_shape env userMessage intent previousMessages
      threshold with h | h | ⟨resp, h⟩ | h <;> rw [h] <;> rfl
  · intro n h
    unfold generateResponse
    rw [h]
  · intro n h
    unfold generateStreamingResponse
    rw [h]

/-- The single-hit retrieval evaluation shared by the C1/C4/C9
witnesses: an index that always returns `resHigh` yields exactly its
boosted copy as context. -/
theorem searchRelevantContext_singleHit (env : OrchestratorEnv) (msg : String)
    (hsearch : ∀ q limit, env.search q limit = Except.ok [resHigh]) :
    searchRelevantContext env msg intentPlain = [boostResult 1 resHigh] := by
  have hq : enhanceQuery msg intentPlain = [msg] := rfl
  have hall : allBoostedResults env msg intentPlain = [boostResult 1 resHigh] := by
    rw [allBoostedResults_eq, hq]
    simp [hsearch, intentPlain]
  unfold searchRelevantContext deduplicateResults dedupBy
  rw [hall]
  simp [dedupByAux, sortByDesc, insertByDesc]

theorem hasSufficientContext_singleHit :
    hasSufficientContext [boostResult 1 resHigh] = true := by
  unfold hasSufficientContext
  show decide ((1 : ℚ)/10 < (boostResult 1 resHigh).score) = true
  apply decide_eq_true
  norm_num [boostResult, resHigh]

/-- Witness for C1: with a throwing backend, both entry points return
the apology message instead of propagating the exception. -/
theorem c1_witness :
    generateResponse envThrow "pergunta" intentPlain none (3/10) =
      (createErrorMessage envThrow "pergunta", 1) ∧
    generateStreamingResponse envThrow "pergunta" intentPlain none (3/10) =
      (createErrorMessage envThrow "pergunta", 1) := by
  have hsrc := searchRelevantContext_singleHit envThrow "pergunta"
    (fun _ _ => rfl)
  have hs : hasSufficientContext
      (searchRelevantContext envThrow "pergunta" intentPlain) = true := by
    rw [hsrc]
    exact hasSufficientContext_singleHit
  constructor
  · exact (c1_orchestrator_never_throws envThrow "pergunta" intentPlain none
      (3/10)).2.2.1 1
      (generateResponseTry_genError envThrow "pergunta" intentPlain none
        (3/10) () hs rfl)
  · exact (c1_orchestrator_never_throws envThrow "pergunta" intentPlain none
      (3/10)).2.2.2.1 1
      (generateStreamingResponseTry_streamError envThrow "pergunta" intentPlain
        none (3/10) (fun _ _ => Except.error ()) () rfl hs rfl)

/-- C4 (amended): after the sufficiency gate passes, a reported backend
confidence `c` with `0 < |c|` and `c < 0.3` — i.e. any value in
`(0, 0.3)`; a reported confidence of exactly `0` is falsy in JS and does
NOT trigger the gate, see the counterexample — makes the orchestrator
return the low-confidence message (which carries at most three file
hints / citations) and stop instead of assembling a normal answer. -/
theorem c4_confidence_gate (env : OrchestratorEnv) (userMessage : String)
    (intent : QueryIntent) (previousMessages : Option (List ChatMessage))
    (resp : LLMResponse) (c : ℚ)
    (hs : hasSufficientContext (searchRelevantContext env userMessage intent) = true)
    (hgen : env.generate userMessage
      (prepareContext (searchRelevantContext env userMessage intent)
        previousMessages) = Except.ok resp)
    (hconf : resp.confidence = some c) (hc0 : c ≠ 0) (hclt : c < 3/10) :
    generateResponse env userMessage intent previousMessages (3/10) =
      (createLowConfidenceMessage env userMessage
        (searchRelevantContext env userMessage intent), 1) ∧
    (createLowConfidenceMessage env userMessage
      (searchRelevantContext env userMessage intent)).citations.length ≤ 3 := by
  have hcg : confidenceGate resp.confidence (3/10) = true := by
    rw [hconf]
    unfold confidenceGate
    show (c != 0 && decide (c < 3/10)) = true
    rw [decide_eq_true hclt]
    simp [bne_iff_ne, hc0]
  have hTry := generateResponseTry_genOk env userMessage intent previousMessages
    (3/10) resp hs hgen
  rw [if_pos hcg] at hTry
  constructor
  · unfold generateResponse
    rw [hTry]
  · unfold createLowConfidenceMessage
    simp only [List.length_map]
    exact List.length_take_le _ _

/-- C4 counterexample to the claim as stated: the backend reports
confidence exactly `0` (which is in `[0, 0.3)`), yet the truthiness
guard `llmResponse.confidence && …` skips the gate and the orchestrator
assembles the normal answer (confidence metadata `0`), not the
low-confidence message. -/
theorem c4_counterexample :
    (generateResponse envConfZero "pergunta" intentPlain none
      (3/10)).1.metadata.confidence = some 0 ∧
    (generateResponse envConfZero "pergunta" intentPlain none (3/10)).1 ≠
      createLowConfidenceMessage envConfZero "pergunta"
        (searchRelevantContext envConfZero "pergunta" intentPlain) := by
  have hsrc := searchRelevantContext_singleHit envConfZero "pergunta"
    (fun _ _ => rfl)
  have hs : hasSufficientContext
      (searchRelevantContext envConfZero "pergunta" intentPlain) = true := by
    rw [hsrc]
    exact hasSufficientContext_singleHit
  have hTry := generateResponseTry_genOk envConfZero "pergunta" intentPlain none
    (3/10) respZero hs rfl
  have hcg : confidenceGate respZero.confidence (3/10) = false := by
    unfold confidenceGate respZero
    simp
  rw [if_neg (by rw [hcg]; simp)] at hTry
  have hres : (generateResponse envConfZero "pergunta" intentPlain none (3/10)).1 =
      assembleMessage envConfZero respZero
        (searchRelevantContext envConfZero "pergunta" intentPlain) := by
    unfold generateResponse
    rw [hTry]
  constructor
  · rw [hres]
    rfl
  · rw [hres]
    intro heq
    have h1 := congrArg (fun m => m.metadata.confidence) heq
    simp only [assembleMessage, createLowConfidenceMessage, respZero] at h1
    exact absurd (Option.some.inj h1) (by norm_num)

/-- Witness for C4 at reported confidence `0.2`. -/
theorem c4_witness :
    generateResponse envConfLow "pergunta" intentPlain none (3/10) =
      (createLowConfidenceMessage envConfLow "pergunta"
        (searchRelevantContext envConfLow "pergunta" intentPlain), 1) := by
  have hsrc := searchRelevantContext_singleHit envConfLow "pergunta"
    (fun _ _ => rfl)
  have hs : hasSufficientContext
      (searchRelevantContext envConfLow "pergunta" intentPlain) = true := by
    rw [hsrc]
    exact hasSufficientContext_singleHit
  exact (c4_confidence_gate envConfLow "pergunta" intentPlain none respLowConf
    (1/5) hs rfl rfl (by norm_num) (by norm_num)).1

/-- C9: on the streaming path with `generateStream` implemented and the
sufficiency gate passed, the terminal message is the normally assembled
one with confidence exactly `0.8` and `tokensUsed =
ceil(content.length / 4)`, whatever the backend streams; in particular
the low-confidence gate `confidence < 0.3` can never trigger there,
since `confidenceGate (some 0.8) 0.3 = false`. -/
theorem c9_streaming_fixed_confidence (env : OrchestratorEnv)
    (userMessage : String) (intent : QueryIntent)
    (previousMessages : Option (List ChatMessage))
    (gs : String → List String → Except Unit (List String)) (chunks : List String)
    (hgs : env.generateStream = some gs)
    (hs : hasSufficientContext (searchRelevantContext env userMessage intent) = true)
    (hok : gs userMessage
      (prepareContext (searchRelevantContext env userMessage intent)
        previousMessages) = Except.ok chunks) :
    generateStreamingResponse env userMessage intent previousMessages (3/10) =
      (assembleMessage env
        { content := String.join chunks,
          tokensUsed := some (((String.join chunks).length + 3) / 4),
          processingTime := env.elapsed,
          confidence := some (4/5), citations := [] }
        (searchRelevantContext env userMessage intent), 1) ∧
    (generateStreamingResponse env userMessage intent previousMessages
      (3/10)).1.metadata.confidence = some (4/5) ∧
    (generateStreamingResponse env userMessage intent previousMessages
      (3/10)).1.metadata.tokensUsed =
      some (((String.join chunks).length + 3) / 4) ∧
    confidenceGate (some ((4 : ℚ)/5)) (3/10) = false := by
  have hcg : confidenceGate (some ((4 : ℚ)/5)) (3/10) = false := by
    unfold confidenceGate
    show (((4 : ℚ)/5 != 0) && decide ((4 : ℚ)/5 < 3/10)) = false
    rw [decide_eq_false (by norm_num : ¬ ((4 : ℚ)/5 < 3/10))]
    simp
  have hTry := generateStreamingResponseTry_streamOk env userMessage intent
    previousMessages (3/10) gs chunks hgs hs hok
  unfold streamingTail at hTry
  rw [if_neg (by rw [hcg]; simp)] at hTry
  have hres : generateStreamingResponse env userMessage intent previousMessages
      (3/10) =
      (assembleMessage env
        { content := String.join chunks,
          tokensUsed := some (((String.join chunks).length + 3) / 4),
          processingTime := env.elapsed,
          confidence := some (4/5), citations := [] }
        (searchRelevantContext env userMessage intent), 1) := by
    unfold generateStreamingResponse
    rw [hTry]
  refine ⟨hres, ?_, ?_, hcg⟩
  · rw [hres]
    rfl
  · rw [hres]
    rfl

/-- Witness for C9 at a concrete stream of fragments. -/
theorem c9_witness :
    (generateStreamingResponse envStream "pergunta" intentPlain none
      (3/10)).1.metadata.confidence = some (4/5) := by
  have hsrc := searchRelevantContext_singleHit envStream "pergunta"
    (fun _ _ => rfl)
  have hs : hasSufficientContext
      (searchRelevantContext envStream "pergunta" intentPlain) = true := by
    rw [hsrc]
    exact hasSufficientContext_singleHit
  exact (c9_streaming_fixed_confidence envStream "pergunta" intentPlain none
    (fun _ _ => Except.ok ["olá ", "mundo"]) ["olá ", "mundo"] rfl hs rfl).2.1

end Vivadoc
